import Mathlib

/-!
# cordless: the `status` command family

A shallow embedding of `commands/commandimpls/status.go`: the router `StatusCmd`, the
handlers `StatusGetCmd`, `StatusSetCmd` and `StatusSetCustomCmd`, and the pieces of the
Go runtime and of the collaborating libraries that their `Execute` methods go through.

Conventions of the embedding.

* A Go `string` is a Lean `String`; where the source works on the bytes of a string
  (`len`, slicing, indexing) the model works on its UTF-8 encoding (`goBytes`).
* The `io.Writer` is the list of the strings handed to it, one entry per `Fprint*` call.
* The session, the theme, the configuration, the emoji table, the clock and the HTTP
  transport are collaborators: their answers are fields of `Env`, the calls made to them
  are recorded in `World`.
* A run-time panic of Go (index out of range) is a value of `Panic`.
-/

set_option autoImplicit false

namespace Cordless

/-! ## Data model -/

/-- The `discordgo.Status` values that `statusToString` distinguishes, and any other
string value of that type. -/
inductive Status where
  | StatusOnline
  | StatusDoNotDisturb
  | StatusIdle
  | StatusInvisible
  | StatusOffline
  | other (raw : String)
  deriving DecidableEq, Repr

/-- The fields of `discordgo.User` that the commands read. -/
structure User where
  ID : String
  Username : String
  Discriminator : String
  Bot : Bool
  deriving DecidableEq, Repr

/-- Go method `discordgo.User.String`: the display tag `Username#Discriminator`. -/
def User.String (u : User) : String :=
  u.Username ++ "#" ++ u.Discriminator

/-- A presence record: `discordgo.Presence` with its user and status. -/
structure Presence where
  User : User
  Status : Status
  deriving DecidableEq, Repr

/-- The cached user settings, `discordgo.Settings`: the status and two of the other
fields, which the commands never look at. -/
structure Settings where
  Status : Status
  Locale : String
  Theme : String
  deriving DecidableEq, Repr

/-- The part of `session.State` the commands use. The pointers `State.User`,
`State.Settings` and `Presence.User` are taken to be non-nil, as they are once the
session is logged in. -/
structure State where
  User : User
  Settings : Settings
  Presences : List Presence
  deriving DecidableEq, Repr

/-- An outgoing HTTP request as built by `http.NewRequest` and `Header.Add`. -/
structure Request where
  Method : String
  URL : String
  Body : String
  Header : List (String × String)
  deriving DecidableEq, Repr

/-- What `Client.Do` hands back when it returns no error: the status code and the result
of `ioutil.ReadAll` on the body (`none` when reading fails). -/
structure Response where
  StatusCode : Int
  Body : Option String
  deriving DecidableEq, Repr

/-- The handlers a router can call. -/
inductive Handler where
  | get
  | set
  | setCustom
  deriving DecidableEq, Repr

/-- Answers of the collaborators. -/
structure Env where
  /-- The value of `tviewutil.ColorToHex(config.GetTheme().ErrorColor)`. -/
  errorColor : String
  /-- The value of `config.GetConfig().Token`. -/
  token : String
  /-- The function `strings.ToLower`. -/
  toLower : String → String
  /-- The function `discordemojimap.ContainsEmoji`. -/
  containsEmoji : String → Bool
  /-- The function `discordemojimap.Replace`. -/
  replace : String → String
  /-- The method `session.UserUpdateStatus`: the returned settings pointer and the returned error. -/
  userUpdateStatus : Status → Option Settings × Option String
  /-- The value of `time.Now().UTC()` in nanoseconds since the epoch, for the k-th reading of the clock. -/
  now : Nat → Int
  /-- The value of `Time.Format(time.RFC3339Nano)` on an instant given in nanoseconds since the epoch. -/
  formatRFC3339Nano : Int → String
  /-- The method `session.Client.Do`: `none` is a transport error. -/
  clientDo : Request → Option Response

/-- Everything an `Execute` call can change or leave a trace in. -/
structure World where
  /-- The value of `session.State`. -/
  State : State
  /-- The strings written to the `io.Writer`, oldest first. -/
  written : List String
  /-- The arguments of the calls of `UserUpdateStatus`, oldest first. -/
  updateCalls : List Status
  /-- The requests passed to `Client.Do`, oldest first. -/
  sent : List Request
  /-- How often the clock has been read. -/
  clockReads : Nat
  /-- Ghost record of the handler calls, oldest first. -/
  invoked : List (Handler × List String)
  deriving DecidableEq, Repr

/-- One `fmt.Fprint*` call on the writer. -/
def World.write (w : World) (s : String) : World :=
  { w with written := w.written ++ [s] }

/-- Entering the `Execute` method of a handler. -/
def World.enter (w : World) (h : Handler) (parameters : List String) : World :=
  { w with invoked := w.invoked ++ [(h, parameters)] }

/-- A Go run-time panic. -/
inductive Panic where
  | indexOutOfRange (index length : Nat)
  deriving DecidableEq, Repr

/-! ## Help pages -/

/-- The constant `statusHelpPage`. -/
def statusHelpPage : String :=
  "[::b]NAME\n\tstatus - view your or others status or update your own\n\n[::b]SYNPOSIS\n\t[::b]status [subcommand]\n\n[::b]DESCRPTION\n\tThis command allows to either update your status or view a users status.\n\tFor more information check the help pages of the subcommands.\n\n[::]SUBCOMMANDS\n\t[::b]status-get (default)\n\t\tprints the status of the given user or yourself\n\t[::b]set-set\n\t\tupdates your current status\n\t[::b]status-set-custom\n\t\tcustomize your status"

/-- The constant `statusSetHelpPage`. -/
def statusSetHelpPage : String :=
  "[::b]NAME\n\tstatus-set - allows updating your own status\n\n[::b]SYNPOSIS\n\t[::b]status-set[::-] <online|idle|dnd|invisible>\n\n[::b]DESCRPTION\n\tThis command can be used to set your current online status to the\n\tvalue passed as the first parameter. Other users will immediately\n\tsee your status update.\n\n[::b]EXAMPLES\n\t[gray]$ status-set invisible"

/-- The constant `statusGetHelpPage`. -/
def statusGetHelpPage : String :=
  "[::b]NAME\n\tstatus-get - prints your current status or the status of the given user\n\n[::b]SYNPOSIS\n\t[::b]status-get[::-] [Username|Username#NNNN|UserID[]\n\n[::b]DESCRPTION\n\tThis command prints either your current status of no value was passed\n\tor the status of the passed user, if the presence for that user could\n\tbe found. Due to a problem with the presences, this command might randomly\n\tfail when trying to query specific users.\n\n[::b]EXAMPLES\n\t[gray]$ status-get\n\t[yellow]idle\n\n\t[gray]$ status-get Marcel#7299\n\t\"[\" + tviewutil.ColorToHex(config.GetTheme().ErrorColor) + \"]Do not disturb"

/-- The constant `statusSetCustomHelpPage`. -/
def statusSetCustomHelpPage : String :=
  "[::b]NAME\n\tstatus-set-custom - set a custom status\n\n[::b]SYNOPSIS\n\t[::b]status-set-custom[::-] [OPTION[]...\n\n[::b]DESCRIPTION\n\tThis command allows you to set a custom status.\n\n[::b]OPTIONS\n\t[::b]-s, --status\n\t\tstatus message\n\t[::b]-e, --emoji\n\t\temoji in your status\n\t[::b]-i, --expire, --expiry <s|m|h>\n\t\ttime that the status expires after\n\n[::b]EXAMPLES\n\t[gray]$ status-set-custom -s \"shining bright\" -e :sun:\n\t[gray]$ status-set-custom -s \"shining bright\" -e 🌞\n\t[gray]$ status-set-custom -s test -i 1h"

/-- The method `StatusCmd.PrintHelp`. -/
def StatusCmd.PrintHelp (w : World) : World :=
  w.write (statusHelpPage ++ "\n")

/-- The method `StatusSetCmd.PrintHelp`. -/
def StatusSetCmd.PrintHelp (w : World) : World :=
  w.write (statusSetHelpPage ++ "\n")

/-- The method `StatusGetCmd.PrintHelp`. -/
def StatusGetCmd.PrintHelp (w : World) : World :=
  w.write (statusGetHelpPage ++ "\n")

/-- The method `StatusSetCustomCmd.PrintHelp`. -/
def StatusSetCustomCmd.PrintHelp (w : World) : World :=
  w.write (statusSetCustomHelpPage ++ "\n")

/-! ## Presence formatter -/

/-- The function `statusToString`. -/
def statusToString (env : Env) (status : Status) : String :=
  match status with
  | .StatusOnline => "[green]Online[white]"
  | .StatusDoNotDisturb => "[" ++ env.errorColor ++ "]Do not disturb[white]"
  | .StatusIdle => "[yellow]Idle[white]"
  | .StatusInvisible => "[gray]Invisible[white]"
  | .StatusOffline => "[gray]Offline[white]"
  | .other _ => "Unknown status"

/-! ## status-get -/

/-- The test of the scan in `StatusGetCmd.Execute`: the key equals the id, the username
or the display tag of the user of the presence. -/
def presenceMatches (input : String) (presence : Presence) : Bool :=
  let user := presence.User
  user.ID == input || user.Username == input || user.String == input

/-- The scan of `StatusGetCmd.Execute`: `matches` grows by `append` while the presences
are walked in order. -/
def collectMatches (input : String) : List Presence → List Presence → List Presence
  | [], found => found
  | presence :: rest, found =>
    if presenceMatches input presence then
      collectMatches input rest (found ++ [presence])
    else
      collectMatches input rest found

/-- The loop that prints the display tag of every match. -/
def writeMatches : List Presence → World → World
  | [], w => w
  | m :: rest, w => writeMatches rest (w.write ("\t" ++ m.User.String ++ "\n"))

/-- The end of `StatusGetCmd.Execute`: the report on the matches that the scan found. -/
def reportMatches (env : Env) (w : World) (input : String) (found : List Presence) : World :=
  if hm : found.length = 0 then
    w.write ("[" ++ env.errorColor ++ "]No match for '" ++ input ++ "'.\n")
  else if found.length > 1 then
    let w := w.write ("Multiple matches were found for '" ++ input ++
      "'. Please be more precise.\n")
    let w := w.write ("The following matches were found:" ++ "\n")
    writeMatches found w
  else
    w.write (statusToString env found[0].Status ++ "\n")

/-- The method `StatusGetCmd.Execute`. -/
def StatusGetCmd.Execute (env : Env) (w : World) (parameters : List String) : World :=
  let w := w.enter .get parameters
  if parameters.length > 1 then
    StatusGetCmd.PrintHelp (w.write ("[" ++ env.errorColor ++ "]Invalid parameters" ++ "\n"))
  else if h0 : parameters.length = 0 then
    w.write (statusToString env w.State.Settings.Status ++ "\n")
  else
    let input := parameters[0]
    let found := collectMatches input w.State.Presences []
    reportMatches env w input found

/-! ## status-set -/

/-- A call of `session.UserUpdateStatus`: the call is recorded and the answer of the
collaborator is handed back. -/
def callUserUpdateStatus (env : Env) (w : World) (status : Status) :
    World × Option Settings × Option String :=
  ({ w with updateCalls := w.updateCalls ++ [status] },
    (env.userUpdateStatus status).1, (env.userUpdateStatus status).2)

/-- The method `StatusSetCmd.Execute`. -/
def StatusSetCmd.Execute (env : Env) (w : World) (parameters : List String) : World :=
  let w := w.enter .set parameters
  if w.State.User.Bot then
    w.write ("[red]This command can't be used by bots due to Discord API restrictions." ++ "\n")
  else if h : parameters.length = 0 ∨ parameters.length > 1 then
    StatusSetCmd.PrintHelp (w.write ("[" ++ env.errorColor ++ "]Invalid parameters" ++ "\n"))
  else
    let lowered := env.toLower (parameters[0])
    let afterSwitch : World × Option Settings × Option String :=
      if lowered = "online" ∨ lowered = "available" then
        callUserUpdateStatus env w .StatusOnline
      else if lowered = "dnd" ∨ lowered = "donotdisturb" ∨ lowered = "busy" then
        callUserUpdateStatus env w .StatusDoNotDisturb
      else if lowered = "idle" then
        callUserUpdateStatus env w .StatusIdle
      else if lowered = "invisible" then
        callUserUpdateStatus env w .StatusInvisible
      else
        (StatusSetCmd.PrintHelp
          (w.write ("[" ++ env.errorColor ++ "]Invalid status: '" ++ lowered ++ "'\n")),
          none, none)
    let w := afterSwitch.1
    let updatedSettings := afterSwitch.2.1
    let settingStatusError := afterSwitch.2.2
    match settingStatusError with
    | some err =>
      w.write ("[" ++ env.errorColor ++ "]Error setting status:\n\t[" ++ env.errorColor ++
        "]'" ++ err ++ "'\n")
    | none =>
      match updatedSettings with
      | some s => { w with State := { w.State with Settings := s } }
      | none => w

/-! ## status -/

/-- The method `StatusCmd.Execute`. -/
def StatusCmd.Execute (env : Env) (w : World) (parameters : List String) : World :=
  if h : parameters.length ≥ 1 then
    if parameters[0] = "set" ∨ parameters[0] = "update" then
      StatusSetCmd.Execute env w (parameters.drop 1)
    else if parameters[0] = "get" then
      StatusGetCmd.Execute env w (parameters.drop 1)
    else
      StatusGetCmd.Execute env w parameters
  else
    StatusGetCmd.Execute env w parameters

/-! ## Go run-time pieces used by status-set-custom -/

/-- The UTF-8 encoding of one code point, as bytes. -/
def utf8EncodeChar (c : Char) : List Nat :=
  let v := c.toNat
  if v ≤ 0x7f then [v]
  else if v ≤ 0x7ff then [0xc0 + v / 64, 0x80 + v % 64]
  else if v ≤ 0xffff then [0xe0 + v / 4096, 0x80 + v / 64 % 64, 0x80 + v % 64]
  else [0xf0 + v / 262144, 0x80 + v / 4096 % 64, 0x80 + v / 64 % 64, 0x80 + v % 64]

/-- The bytes of a Go string: what `len`, slicing and indexing work on. -/
def goBytes (s : String) : List Nat :=
  s.data.flatMap utf8EncodeChar

/-- The class `\d` of the regular expression. -/
def isDigitChar (c : Char) : Bool :=
  decide ('0'.toNat ≤ c.toNat ∧ c.toNat ≤ '9'.toNat)

/-- The alternation `(s|m|h)` of the regular expression. -/
def isUnitChar (c : Char) : Bool :=
  c == 's' || c == 'm' || c == 'h'

/-- The rest of `\d+(s|m|h)` once one digit has been read: further digits, then the unit. -/
def matchAfterDigit : List Char → Bool
  | [] => false
  | c :: cs => if isDigitChar c then matchAfterDigit cs else isUnitChar c

/-- A match of `\d+(s|m|h)` that starts at the head of the input. -/
def matchHere : List Char → Bool
  | [] => false
  | c :: cs => isDigitChar c && matchAfterDigit cs

/-- The search of `regexp.MatchString`: a match may start at any position of the input. -/
def matchAnywhere : List Char → Bool
  | [] => false
  | c :: cs => matchHere (c :: cs) || matchAnywhere cs

/-- The call ``regexp.MatchString(`\d+(s|m|h)`, s)``; the pattern compiles, so the error
result is nil and the boolean is the outcome of the search. -/
def regexpMatchString (s : String) : Bool :=
  matchAnywhere s.data

/-- The value of a run of decimal digit bytes read from the left, `acc` being the value
read so far; `none` when a byte is not a digit. -/
def parseDigits : List Nat → Nat → Option Nat
  | [], acc => some acc
  | b :: bs, acc => if 48 ≤ b ∧ b ≤ 57 then parseDigits bs (acc * 10 + (b - 48)) else none

/-- The function `strconv.Atoi` on the bytes of its argument, for a 64-bit `int`: an optional sign, at
least one digit, nothing else, and the value within the range of `int`. `none` is a
non-nil error. -/
def Atoi (bs : List Nat) : Option Int :=
  match bs with
  | [] => none
  | b :: rest =>
    if b = 43 then
      match rest with
      | [] => none
      | _ :: _ =>
        match parseDigits rest 0 with
        | some n => if n ≤ 2 ^ 63 - 1 then some (n : Int) else none
        | none => none
    else if b = 45 then
      match rest with
      | [] => none
      | _ :: _ =>
        match parseDigits rest 0 with
        | some n => if n ≤ 2 ^ 63 then some (-(n : Int)) else none
        | none => none
    else
      match parseDigits (b :: rest) 0 with
      | some n => if n ≤ 2 ^ 63 - 1 then some (n : Int) else none
      | none => none

/-- The value an `int64` holds after a computation whose exact result is `x`. -/
def wrapInt64 (x : Int) : Int :=
  (x + 2 ^ 63) % 2 ^ 64 - 2 ^ 63

/-- The constant `time.Second`, in nanoseconds. -/
def timeSecond : Int := 1000000000

/-- The constant `time.Minute`, in nanoseconds. -/
def timeMinute : Int := 60 * timeSecond

/-- The constant `time.Hour`, in nanoseconds. -/
def timeHour : Int := 60 * timeMinute

/-- The product `unit * time.Duration(num)`: a product of two `int64`. -/
def durationMul (unit num : Int) : Int :=
  wrapInt64 (unit * num)

/-- The method `Time.Add` on an instant in nanoseconds since the epoch. -/
def timeAdd (t d : Int) : Int :=
  t + d

/-- The `%s` verb of `fmt` applied to a byte, which is not a string. -/
def fmtByteAsString (b : Nat) : String :=
  "%!s(uint8=" ++ toString b ++ ")"

/-! ## The custom status map and its JSON encoding -/

/-- A `map[string]string`: an association list with one entry per key. -/
abbrev StringMap := List (String × String)

/-- The assignment `m[key] = value`. -/
def StringMap.set : StringMap → String → String → StringMap
  | [], key, value => [(key, value)]
  | (k, v) :: rest, key, value =>
    if k = key then (k, value) :: rest else (k, v) :: StringMap.set rest key value

/-- The lookup `m[key]` with its presence flag. -/
def StringMap.get? : StringMap → String → Option String
  | [], _ => none
  | (k, v) :: rest, key => if k = key then some v else StringMap.get? rest key

/-- A hexadecimal digit, lower case. -/
def hexDigit (n : Nat) : Char :=
  if n < 10 then Char.ofNat (48 + n) else Char.ofNat (87 + n)

/-- The escape `\u00XX` for a code point below 256. -/
def jsonUnicodeEscape (n : Nat) : List Char :=
  ['\\', 'u', '0', '0', hexDigit (n / 16), hexDigit (n % 16)]

/-- The encoding of one code point inside a JSON string by `encoding/json` with HTML
escaping on, as `json.Marshal` has it. -/
def jsonEscapeChar (c : Char) : List Char :=
  if c = '"' then ['\\', '"']
  else if c = '\\' then ['\\', '\\']
  else if c = '\n' then ['\\', 'n']
  else if c = '\r' then ['\\', 'r']
  else if c = '\t' then ['\\', 't']
  else if c.toNat < 0x20 then jsonUnicodeEscape c.toNat
  else if c = '<' ∨ c = '>' ∨ c = '&' then jsonUnicodeEscape c.toNat
  else if c.toNat = 0x2028 then ['\\', 'u', '2', '0', '2', '8']
  else if c.toNat = 0x2029 then ['\\', 'u', '2', '0', '2', '9']
  else [c]

/-- A JSON string literal. -/
def jsonString (s : String) : String :=
  "\"" ++ String.mk (s.data.flatMap jsonEscapeChar) ++ "\""

/-- The order of Go on strings: lexicographic on the bytes. -/
def bytesLt : List Nat → List Nat → Bool
  | _, [] => false
  | [], _ :: _ => true
  | a :: as, b :: bs => decide (a < b) || (decide (a = b) && bytesLt as bs)

/-- Insertion of an entry into a list of entries ordered by key. -/
def insertByKey (e : String × String) : List (String × String) → List (String × String)
  | [] => [e]
  | x :: xs =>
    if bytesLt (goBytes e.1) (goBytes x.1) then e :: x :: xs else x :: insertByKey e xs

/-- The entries of a map in the order `encoding/json` writes them: sorted by key. -/
def sortByKey : List (String × String) → List (String × String)
  | [] => []
  | e :: es => insertByKey e (sortByKey es)

/-- The members of a JSON object, separated by commas. -/
def jsonMembers : List (String × String) → String
  | [] => ""
  | [(k, v)] => jsonString k ++ ":" ++ jsonString v
  | (k, v) :: e :: es => jsonString k ++ ":" ++ jsonString v ++ "," ++ jsonMembers (e :: es)

/-- The call `json.Marshal` on a `map[string]string`. -/
def jsonMarshalMap (m : StringMap) : String :=
  "\x7b" ++ jsonMembers (sortByKey m) ++ "\x7d"

/-- The call `json.Marshal(map[string]map[string]string{"custom_status": customStatus})`;
it cannot fail on a map of strings. -/
def jsonMarshalRequest (customStatus : StringMap) : String :=
  "\x7b" ++ jsonString "custom_status" ++ ":" ++ jsonMarshalMap customStatus ++ "\x7d"

/-! ## status-set-custom -/

/-- How the loop over the parameters ends. -/
inductive LoopResult where
  /-- The loop ran over all parameters. -/
  | completed (w : World) (customStatus : StringMap)
  /-- A `return` statement inside the loop. -/
  | returned (w : World)
  /-- A run-time panic inside the loop. -/
  | panicked (p : Panic)
  deriving DecidableEq, Repr

/-- The body of the `-i`, `--expire`, `--expiry` case once `parameters[index+1]` has been
read as `value`: `none` is the `return` of an error branch, otherwise the world and the
map to go on with. A value the pattern matches has two bytes or more, so the slice and
the index at `lastIndex` are in range. -/
def expiryCase (env : Env) (w : World) (customStatus : StringMap) (value : String) :
    World × Option StringMap :=
  if regexpMatchString value then
    let lastIndex := (goBytes value).length - 1
    match Atoi ((goBytes value).take lastIndex) with
    | none => (w.write ("[" ++ env.errorColor ++ "]Invalid expiry\n"), none)
    | some num =>
      let now := env.now w.clockReads
      let w := { w with clockReads := w.clockReads + 1 }
      let unit := (goBytes value).getD lastIndex 0
      if unit = 's'.toNat then
        (w, some (customStatus.set "expires_at"
          (env.formatRFC3339Nano (timeAdd now (durationMul timeSecond num)))))
      else if unit = 'm'.toNat then
        (w, some (customStatus.set "expires_at"
          (env.formatRFC3339Nano (timeAdd now (durationMul timeMinute num)))))
      else if unit = 'h'.toNat then
        (w, some (customStatus.set "expires_at"
          (env.formatRFC3339Nano (timeAdd now (durationMul timeHour num)))))
      else
        (w.write ("[" ++ env.errorColor ++ "]Invalid time character: " ++
          fmtByteAsString unit ++ " != <s|m|h>\n"), none)
  else
    (w, some customStatus)

/-- The loop `for index, param := range parameters` of `StatusSetCustomCmd.Execute`: the
second list is what is left of `parameters` from position `index` on. -/
def flagLoop (env : Env) (parameters : List String) :
    List String → Nat → World → StringMap → LoopResult
  | [], _, w, customStatus => .completed w customStatus
  | param :: rest, index, w, customStatus =>
    if param = "-s" ∨ param = "--status" then
      if index ≠ parameters.length - 1 then
        match parameters[index + 1]? with
        | some value => flagLoop env parameters rest (index + 1) w (customStatus.set "text" value)
        | none => .panicked (.indexOutOfRange (index + 1) parameters.length)
      else
        .returned (w.write ("[" ++ env.errorColor ++ "]Error, you didn't supply a status\n"))
    else if param = "-e" ∨ param = "--emoji" then
      if index ≠ parameters.length - 1 then
        match parameters[index + 1]? with
        | some value =>
          if env.containsEmoji value then
            flagLoop env parameters rest (index + 1) w (customStatus.set "emoji_name" value)
          else if env.replace value ≠ value then
            flagLoop env parameters rest (index + 1) w
              (customStatus.set "emoji_name" (env.replace value))
          else
            .returned (w.write ("[" ++ env.errorColor ++ "]Invalid emoji\n"))
        | none => .panicked (.indexOutOfRange (index + 1) parameters.length)
      else
        flagLoop env parameters rest (index + 1) w customStatus
    else if param = "-i" ∨ param = "--expire" ∨ param = "--expiry" then
      match parameters[index + 1]? with
      | some value =>
        match expiryCase env w customStatus value with
        | (w, some customStatus) => flagLoop env parameters rest (index + 1) w customStatus
        | (w, none) => .returned w
      | none => .panicked (.indexOutOfRange (index + 1) parameters.length)
    else
      flagLoop env parameters rest (index + 1) w customStatus

/-- The request of `StatusSetCustomCmd.Execute`: `http.NewRequest` on the constant
method and URL, which cannot fail, and the two `Header.Add` calls. -/
def buildRequest (env : Env) (customStatus : StringMap) : Request :=
  { Method := "PATCH"
    URL := "https://discordapp.com/api/v6/users/@me/settings"
    Body := jsonMarshalRequest customStatus
    Header := [("authorization", env.token), ("content-type", "application/json")] }

/-- The part of `StatusSetCustomCmd.Execute` after the loop: build the request, send it
and report the outcome. -/
def sendCustomStatus (env : Env) (w : World) (customStatus : StringMap) : World :=
  let request := buildRequest env customStatus
  let w := { w with sent := w.sent ++ [request] }
  match env.clientDo request with
  | none => w.write ("[" ++ env.errorColor ++ "]Error sending status update request.\n")
  | some resp =>
    if resp.StatusCode ≠ 200 then
      let w := w.write ("[" ++ env.errorColor ++ "]Bad status return; " ++
        toString resp.StatusCode ++ " != 200\n")
      match resp.Body with
      | none => w.write ("[" ++ env.errorColor ++ "]Error reading response body\n")
      | some b => w.write ("[" ++ env.errorColor ++ "]" ++ b)
    else
      w.write ("[green]Updated custom status." ++ "\n")

/-- What `StatusSetCustomCmd.Execute` does with the outcome of its loop: go on to build
and send the request, return, or panic. -/
def finishLoop (env : Env) : LoopResult → Except Panic World
  | .completed w customStatus => .ok (sendCustomStatus env w customStatus)
  | .returned w => .ok w
  | .panicked p => .error p

/-- The method `StatusSetCustomCmd.Execute`. -/
def StatusSetCustomCmd.Execute (env : Env) (w : World) (parameters : List String) :
    Except Panic World :=
  let w := w.enter .setCustom parameters
  if w.State.User.Bot then
    .ok (w.write
      ("[red]This command can't be used by bots due to Discord API restrictions." ++ "\n"))
  else if parameters.length = 0 then
    .ok (StatusSetCustomCmd.PrintHelp
      (w.write ("[" ++ env.errorColor ++ "]Invalid parameters" ++ "\n")))
  else
    finishLoop env (flagLoop env parameters parameters 0 w [])

/-! ## Sample collaborators, for concrete runs -/

/-- Lower-casing of the letters `A` to `Z`. -/
def asciiLower (s : String) : String :=
  String.mk (s.data.map Char.toLower)

/-- A settings value with the given status. -/
def sampleSettings (status : Status) : Settings :=
  { Status := status, Locale := "en-US", Theme := "dark" }

/-- Collaborators that always succeed: the emoji table knows the sun only, the clock
shows 1000 plus the number of earlier readings, instants are printed as numbers. -/
def sampleEnv : Env :=
  { errorColor := "#ff0000"
    token := "secret"
    toLower := asciiLower
    containsEmoji := fun s => s == "🌞"
    replace := fun s => if s = ":sun:" then "🌞" else s
    userUpdateStatus := fun status => (some (sampleSettings status), none)
    now := fun k => 1000 + (k : Int)
    formatRFC3339Nano := fun t => toString t
    clientDo := fun _ => some { StatusCode := 200, Body := some "" } }

/-- A user account. -/
def sampleUser (bot : Bool) : User :=
  { ID := "42", Username := "Marcel", Discriminator := "7299", Bot := bot }

/-- A fresh world of a session with the given user and presences. -/
def sampleWorld (user : User) (presences : List Presence) : World :=
  { State := { User := user, Settings := sampleSettings .StatusOnline, Presences := presences }
    written := []
    updateCalls := []
    sent := []
    clockReads := 0
    invoked := [] }

/-! ## The table of status-set as the specification gives it -/

/-- The accepted tokens of status-set with the status each stands for, as listed in the
specification. -/
def specStatusTable : List (String × Status) :=
  [("online", .StatusOnline), ("available", .StatusOnline),
   ("dnd", .StatusDoNotDisturb), ("donotdisturb", .StatusDoNotDisturb),
   ("busy", .StatusDoNotDisturb), ("idle", .StatusIdle), ("invisible", .StatusInvisible)]

/-! ## Texts and notions the statements below refer to -/

/-- The message both setters write for a bot account. -/
def botMessage : String :=
  "[red]This command can't be used by bots due to Discord API restrictions.\n"

/-- The spellings of the three flag families of status-set-custom. -/
def flagSpellings : List String :=
  ["-s", "--status", "-e", "--emoji", "-i", "--expire", "--expiry"]

/-- The number a run of decimal digits denotes, read from the left. -/
def decimalValue (ds : List Char) : Nat :=
  ds.foldl (fun acc c => acc * 10 + (c.toNat - '0'.toNat)) 0

/-- The form the specification asks of the token after an expiry flag: the whole token is
one or more decimal digits followed by exactly one of `s`, `m`, `h`. -/
def specDurationForm (t : String) : Bool :=
  match t.data.reverse with
  | u :: d :: ds =>
    (u == 's' || u == 'm' || u == 'h') &&
      (d :: ds).all (fun c => decide (48 ≤ c.toNat ∧ c.toNat ≤ 57))
  | _ => false

/-- The units of the specification with their length in nanoseconds. -/
def specUnits : List (Char × Int) :=
  [('s', 1000000000), ('m', 60000000000), ('h', 3600000000000)]

/-- Collaborators like the sample ones, except that every status update fails with an
error and still hands back a settings value. -/
def sampleEnvUpdateFails : Env :=
  { sampleEnv with
    userUpdateStatus := fun status => (some (sampleSettings status), some "HTTP 500") }

/-- Collaborators like the sample ones, except that the server answers 403 with the
given result of reading the body. -/
def sampleEnvForbidden (body : Option String) : Env :=
  { sampleEnv with clientDo := fun _ => some { StatusCode := 403, Body := body } }

/-- The error written when a status flag is the last token. -/
def missingStatusMessage (env : Env) : String :=
  "[" ++ env.errorColor ++ "]Error, you didn't supply a status\n"

/-- The error written when the token after an emoji flag is no emoji. -/
def invalidEmojiMessage (env : Env) : String :=
  "[" ++ env.errorColor ++ "]Invalid emoji\n"

/-- The error written when the integer parse in the expiry case fails. -/
def invalidExpiryMessage (env : Env) : String :=
  "[" ++ env.errorColor ++ "]Invalid expiry\n"

/-- The second world is the first one but for the number of clock readings. -/
def sameButClock (w w₁ : World) : Prop :=
  w₁ = { w with clockReads := w₁.clockReads }

/-- The three field names of a custom-status request in the specification. -/
def specFieldNames : List String :=
  ["text", "emoji_name", "expires_at"]

/-! ## A reader for the wire format -/

/-- The value of a hexadecimal digit. -/
def hexValue (c : Char) : Option Nat :=
  if 48 ≤ c.toNat ∧ c.toNat ≤ 57 then some (c.toNat - 48)
  else if 97 ≤ c.toNat ∧ c.toNat ≤ 102 then some (c.toNat - 87)
  else if 65 ≤ c.toNat ∧ c.toNat ≤ 70 then some (c.toNat - 55)
  else none

/-- The character a two-character escape of JSON stands for, given its second character. -/
def unescapeChar (e : Char) : Option Char :=
  if e = '"' then some '"'
  else if e = '\\' then some '\\'
  else if e = '/' then some '/'
  else if e = 'n' then some '\n'
  else if e = 'r' then some '\r'
  else if e = 't' then some '\t'
  else if e = 'b' then some (Char.ofNat 8)
  else if e = 'f' then some (Char.ofNat 12)
  else none

/-- Reading a JSON string from behind its opening quote: the characters it denotes and
the input that follows its closing quote. -/
def readStringBody : List Char → Option (List Char × List Char)
  | [] => none
  | c :: rest =>
    if c = '"' then some ([], rest)
    else if c = '\\' then
      match rest with
      | [] => none
      | e :: rest₁ =>
        if e = 'u' then
          match rest₁ with
          | h₁ :: h₂ :: h₃ :: h₄ :: rest₂ =>
            match hexValue h₁, hexValue h₂, hexValue h₃, hexValue h₄, readStringBody rest₂ with
            | some x₁, some x₂, some x₃, some x₄, some (s, r) =>
              some (Char.ofNat (((x₁ * 16 + x₂) * 16 + x₃) * 16 + x₄) :: s, r)
            | _, _, _, _, _ => none
          | _ => none
        else
          match unescapeChar e, readStringBody rest₁ with
          | some x, some (s, r) => some (x :: s, r)
          | _, _ => none
    else
      match readStringBody rest with
      | some (s, r) => some (c :: s, r)
      | none => none

/-- Reading a JSON string: the opening quote, then the body. -/
def readString : List Char → Option (List Char × List Char)
  | [] => none
  | c :: rest => if c = '"' then readStringBody rest else none

/-- Reading the members of a JSON object of strings, up to and including the closing
brace; the first argument bounds the number of members. -/
def readMembers : Nat → List Char → Option (List (String × String) × List Char)
  | 0, _ => none
  | fuel + 1, input =>
    match readString input with
    | some (k, c₁ :: r₁) =>
      if c₁ = ':' then
        match readString r₁ with
        | some (v, c₂ :: r₂) =>
          if c₂ = ',' then
            match readMembers fuel r₂ with
            | some (ms, r) => some ((String.mk k, String.mk v) :: ms, r)
            | none => none
          else if c₂ = '\x7d' then some ([(String.mk k, String.mk v)], r₂)
          else none
        | _ => none
      else none
    | _ => none

/-- Reading a JSON object of strings: the members in the order they are written, and the
input that follows the closing brace. -/
def readObject : List Char → Option (List (String × String) × List Char)
  | c₁ :: c₂ :: rest =>
    if c₁ = '\x7b' then
      if c₂ = '\x7d' then some ([], rest) else readMembers (c₂ :: rest).length (c₂ :: rest)
    else none
  | _ => none

/-- Reading a request body back: the members of the object found under the single key
`custom_status`, in the order they are written. -/
def decodeRequestBody (body : String) : Option (List (String × String)) :=
  match body.data with
  | c :: rest =>
    if c = '\x7b' then
      match readString rest with
      | some (k, c₁ :: r₁) =>
        if k = "custom_status".data ∧ c₁ = ':' then
          match readObject r₁ with
          | some (ms, r₂) => if r₂ = ['\x7d'] then some ms else none
          | none => none
        else none
      | _ => none
    else none
  | [] => none

/-! ## Lemmas -/

theorem collectMatches_eq (input : String) (ps found : List Presence) :
    collectMatches input ps found = found ++ ps.filter (presenceMatches input) := by
  induction ps generalizing found with
  | nil => simp [collectMatches]
  | cons p ps ih =>
    by_cases hp : presenceMatches input p = true
    · simp [collectMatches, hp, ih]
    · simp [collectMatches, hp, ih]

theorem writeMatches_eq (ms : List Presence) (w : World) :
    writeMatches ms w =
      { w with written := w.written ++ ms.map (fun m => "\t" ++ m.User.String ++ "\n") } := by
  induction ms generalizing w with
  | nil => simp [writeMatches]
  | cons m ms ih => simp [writeMatches, ih, World.write]

theorem reportMatches_eq (env : Env) (w : World) (input : String) (found : List Presence) :
    reportMatches env w input found =
      { w with written := w.written ++
          (match found with
           | [] => ["[" ++ env.errorColor ++ "]No match for '" ++ input ++ "'.\n"]
           | [m] => [statusToString env m.Status ++ "\n"]
           | m₁ :: m₂ :: ms =>
             ["Multiple matches were found for '" ++ input ++ "'. Please be more precise.\n",
              "The following matches were found:" ++ "\n"] ++
             (m₁ :: m₂ :: ms).map (fun m => "\t" ++ m.User.String ++ "\n")) } := by
  rcases found with _ | ⟨m₁, _ | ⟨m₂, ms⟩⟩
  · simp [reportMatches, World.write]
  · simp [reportMatches, World.write]
  · simp [reportMatches, World.write, writeMatches_eq]

theorem StatusGetCmd_Execute_invoked (env : Env) (w : World) (ps : List String) :
    (StatusGetCmd.Execute env w ps).invoked = w.invoked ++ [(Handler.get, ps)] := by
  unfold StatusGetCmd.Execute
  simp only [reportMatches_eq]
  split_ifs <;> simp [World.write, World.enter, StatusGetCmd.PrintHelp]

theorem StatusSetCmd_Execute_invoked (env : Env) (w : World) (ps : List String) :
    (StatusSetCmd.Execute env w ps).invoked = w.invoked ++ [(Handler.set, ps)] := by
  unfold StatusSetCmd.Execute
  simp only [callUserUpdateStatus]
  split_ifs <;> (try split) <;> (try split) <;>
    simp [World.write, World.enter, StatusSetCmd.PrintHelp]

theorem getElem_after_split (pre : List String) (param : String) (rest : List String) :
    (pre ++ param :: rest)[pre.length + 1]? = rest.head? := by
  rw [List.getElem?_append_right (by omega)]
  cases rest <;> simp

theorem index_ne_last_iff (pre : List String) (param : String) (rest : List String) :
    pre.length ≠ (pre ++ param :: rest).length - 1 ↔ rest ≠ [] := by
  cases rest <;> simp

theorem StatusSetCustomCmd_Execute_nonbot (env : Env) (w : World) (ps : List String)
    (hbot : w.State.User.Bot = false) (hps : ps ≠ []) :
    StatusSetCustomCmd.Execute env w ps =
      finishLoop env (flagLoop env ps ps 0 (w.enter Handler.setCustom ps) []) := by
  have hb : (w.enter Handler.setCustom ps).State.User.Bot = false := hbot
  have hl : ps.length ≠ 0 := by
    cases ps with
    | nil => exact absurd rfl hps
    | cons a as => simp
  simp only [StatusSetCustomCmd.Execute, hb, Bool.false_eq_true, if_false, hl]

theorem flagLoop_status_step (env : Env) (pre : List String) (flag v : String)
    (rest : List String) (w : World) (cs : StringMap) (hflag : flag = "-s" ∨ flag = "--status") :
    flagLoop env (pre ++ flag :: v :: rest) (flag :: v :: rest) pre.length w cs =
      flagLoop env (pre ++ flag :: v :: rest) (v :: rest) (pre.length + 1) w
        (cs.set "text" v) := by
  have h1 := getElem_after_split pre flag (v :: rest)
  have h2 := (index_ne_last_iff pre flag (v :: rest)).2 (by simp)
  rw [flagLoop]
  simp only [hflag, if_true, h2, ne_eq, not_false_eq_true, h1, List.head?_cons]

theorem flagLoop_emoji_step (env : Env) (pre : List String) (flag v : String)
    (rest : List String) (w : World) (cs : StringMap) (hflag : flag = "-e" ∨ flag = "--emoji") :
    flagLoop env (pre ++ flag :: v :: rest) (flag :: v :: rest) pre.length w cs =
      if env.containsEmoji v then
        flagLoop env (pre ++ flag :: v :: rest) (v :: rest) (pre.length + 1) w
          (cs.set "emoji_name" v)
      else if env.replace v ≠ v then
        flagLoop env (pre ++ flag :: v :: rest) (v :: rest) (pre.length + 1) w
          (cs.set "emoji_name" (env.replace v))
      else
        .returned (w.write ("[" ++ env.errorColor ++ "]Invalid emoji\n")) := by
  have h1 := getElem_after_split pre flag (v :: rest)
  have h2 := (index_ne_last_iff pre flag (v :: rest)).2 (by simp)
  have hs : ¬ (flag = "-s" ∨ flag = "--status") := by
    rcases hflag with h | h <;> subst h <;> decide
  rw [flagLoop]
  simp only [hs, hflag, if_true, if_false, h2, ne_eq, not_false_eq_true, h1, List.head?_cons]

theorem flagLoop_expiry_step (env : Env) (pre : List String) (flag v : String)
    (rest : List String) (w : World) (cs : StringMap)
    (hflag : flag = "-i" ∨ flag = "--expire" ∨ flag = "--expiry") :
    flagLoop env (pre ++ flag :: v :: rest) (flag :: v :: rest) pre.length w cs =
      match expiryCase env w cs v with
      | (w, some cs) => flagLoop env (pre ++ flag :: v :: rest) (v :: rest) (pre.length + 1) w cs
      | (w, none) => .returned w := by
  have h1 := getElem_after_split pre flag (v :: rest)
  have hs : ¬ (flag = "-s" ∨ flag = "--status") := by
    rcases hflag with h | h | h <;> subst h <;> decide
  have he : ¬ (flag = "-e" ∨ flag = "--emoji") := by
    rcases hflag with h | h | h <;> subst h <;> decide
  rw [flagLoop]
  simp only [hs, he, hflag, if_true, if_false, h1, List.head?_cons]

theorem flagLoop_expiry_last (env : Env) (pre : List String) (flag : String)
    (w : World) (cs : StringMap)
    (hflag : flag = "-i" ∨ flag = "--expire" ∨ flag = "--expiry") :
    flagLoop env (pre ++ [flag]) [flag] pre.length w cs =
      .panicked (.indexOutOfRange (pre.length + 1) (pre.length + 1)) := by
  have h1 := getElem_after_split pre flag []
  have hs : ¬ (flag = "-s" ∨ flag = "--status") := by
    rcases hflag with h | h | h <;> subst h <;> decide
  have he : ¬ (flag = "-e" ∨ flag = "--emoji") := by
    rcases hflag with h | h | h <;> subst h <;> decide
  rw [flagLoop]
  simp only [hs, he, hflag, if_true, if_false, h1, List.head?_nil, List.length_append,
    List.length_singleton]

theorem flagLoop_skip_one (env : Env) (pre : List String) (tok : String)
    (rest : List String) (w : World) (cs : StringMap) (htok : tok ∉ flagSpellings) :
    flagLoop env (pre ++ tok :: rest) (tok :: rest) pre.length w cs =
      flagLoop env (pre ++ tok :: rest) rest (pre.length + 1) w cs := by
  simp only [flagSpellings, List.mem_cons, List.mem_singleton, List.not_mem_nil, or_false,
    not_or] at htok
  rw [flagLoop]
  simp [htok]

theorem flagLoop_skip (env : Env) (pre mid rest : List String) (w : World) (cs : StringMap)
    (hmid : ∀ tok ∈ mid, tok ∉ flagSpellings) :
    flagLoop env (pre ++ mid ++ rest) (mid ++ rest) pre.length w cs =
      flagLoop env (pre ++ mid ++ rest) rest (pre.length + mid.length) w cs := by
  induction mid generalizing pre with
  | nil => simp
  | cons tok mid ih =>
    have h1 : pre ++ tok :: mid ++ rest = pre ++ tok :: (mid ++ rest) := by simp
    have h2 : pre ++ tok :: mid ++ rest = (pre ++ [tok]) ++ mid ++ rest := by simp
    have hstep := flagLoop_skip_one env pre tok (mid ++ rest) w cs
      (hmid tok (List.mem_cons_self _ _))
    have hrec := ih (pre ++ [tok]) (fun t ht => hmid t (List.mem_cons_of_mem _ ht))
    rw [h1, List.cons_append, hstep, ← h1, h2, show pre.length + 1 = (pre ++ [tok]).length by simp,
      hrec]
    simp only [List.length_append, List.length_cons, List.length_nil, Nat.zero_add,
      Nat.add_assoc, Nat.add_comm 1 mid.length]

theorem matchAfterDigit_decompose (d : Char) (cs : List Char) (hd : isDigitChar d = true)
    (h : matchAfterDigit cs = true) :
    ∃ a d₁ u b, d :: cs = a ++ d₁ :: u :: b ∧ isDigitChar d₁ = true ∧ isUnitChar u = true := by
  induction cs generalizing d with
  | nil => simp [matchAfterDigit] at h
  | cons c cs ih =>
    by_cases hc : isDigitChar c = true
    · simp only [matchAfterDigit, hc, if_true] at h
      obtain ⟨a, d₁, u, b, he, h1, h2⟩ := ih c hc h
      exact ⟨d :: a, d₁, u, b, by simp [he], h1, h2⟩
    · simp only [matchAfterDigit, hc, if_false] at h
      exact ⟨[], d, c, cs, rfl, hd, h⟩

theorem matchAnywhere_decompose (cs : List Char) (h : matchAnywhere cs = true) :
    ∃ a d u b, cs = a ++ d :: u :: b ∧ isDigitChar d = true ∧ isUnitChar u = true := by
  induction cs with
  | nil => simp [matchAnywhere] at h
  | cons c cs ih =>
    simp only [matchAnywhere, matchHere, Bool.or_eq_true, Bool.and_eq_true] at h
    rcases h with ⟨hc, hm⟩ | h
    · exact matchAfterDigit_decompose c cs hc hm
    · obtain ⟨a, d, u, b, he, h1, h2⟩ := ih h
      exact ⟨c :: a, d, u, b, by simp [he], h1, h2⟩

theorem isUnitChar_not_digit (u : Char) (hu : isUnitChar u = true) :
    isDigitChar u = false := by
  simp only [isUnitChar, Bool.or_eq_true, beq_iff_eq] at hu
  rcases hu with (h | h) | h <;> subst h <;> decide

theorem matchAfterDigit_digits_unit (ds : List Char) (u : Char)
    (hdig : ∀ c ∈ ds, isDigitChar c = true) (hu : isUnitChar u = true) :
    matchAfterDigit (ds ++ [u]) = true := by
  induction ds with
  | nil =>
    simp [matchAfterDigit, isUnitChar_not_digit u hu, hu]
  | cons d ds ih =>
    have hd := hdig d (List.mem_cons_self _ _)
    simp only [List.cons_append, matchAfterDigit, hd, if_true]
    exact ih (fun c hc => hdig c (List.mem_cons_of_mem _ hc))

theorem matchAnywhere_digits_unit (ds : List Char) (u : Char) (hds : ds ≠ [])
    (hdig : ∀ c ∈ ds, isDigitChar c = true) (hu : isUnitChar u = true) :
    matchAnywhere (ds ++ [u]) = true := by
  cases ds with
  | nil => exact absurd rfl hds
  | cons d ds =>
    have hd := hdig d (List.mem_cons_self _ _)
    simp only [List.cons_append, matchAnywhere, matchHere, hd, Bool.true_and,
      Bool.or_eq_true]
    exact Or.inl (matchAfterDigit_digits_unit ds u
      (fun c hc => hdig c (List.mem_cons_of_mem _ hc)) hu)

theorem goBytes_ascii (cs : List Char) (h : ∀ c ∈ cs, c.toNat ≤ 127) :
    goBytes (String.mk cs) = cs.map Char.toNat := by
  induction cs with
  | nil => rfl
  | cons c cs ih =>
    have hc := h c (List.mem_cons_self _ _)
    have ih2 := ih (fun c hc => h c (List.mem_cons_of_mem _ hc))
    simp only [goBytes, List.flatMap_cons, List.map_cons] at ih2 ⊢
    rw [ih2]
    simp [utf8EncodeChar, hc]

theorem parseDigits_digits (ds : List Char) (acc : Nat)
    (hdig : ∀ c ∈ ds, 48 ≤ c.toNat ∧ c.toNat ≤ 57) :
    parseDigits (ds.map Char.toNat) acc =
      some (ds.foldl (fun acc c => acc * 10 + (c.toNat - '0'.toNat)) acc) := by
  induction ds generalizing acc with
  | nil => rfl
  | cons d ds ih =>
    have hd := hdig d (List.mem_cons_self _ _)
    simp only [List.map_cons, parseDigits, hd, and_self, if_true, List.foldl_cons]
    rw [ih _ (fun c hc => hdig c (List.mem_cons_of_mem _ hc))]
    rfl

theorem Atoi_digits (ds : List Char) (hds : ds ≠ [])
    (hdig : ∀ c ∈ ds, 48 ≤ c.toNat ∧ c.toNat ≤ 57) (hfit : decimalValue ds ≤ 2 ^ 63 - 1) :
    Atoi (ds.map Char.toNat) = some (decimalValue ds : Int) := by
  cases ds with
  | nil => exact absurd rfl hds
  | cons d ds =>
    have hd := hdig d (List.mem_cons_self _ _)
    have h43 : d.toNat ≠ 43 := by omega
    have h45 : d.toNat ≠ 45 := by omega
    have hp := parseDigits_digits (d :: ds) 0 hdig
    simp only [List.map_cons] at hp
    simp only [List.map_cons, Atoi, h43, h45, if_false, hp]
    have hf : List.foldl (fun acc c => acc * 10 + (c.toNat - '0'.toNat)) 0 (d :: ds) ≤
        2 ^ 63 - 1 := hfit
    simp only [hf, if_true]
    rfl

theorem expiryCase_no_match (env : Env) (w : World) (cs : StringMap) (v : String)
    (h : regexpMatchString v = false) : expiryCase env w cs v = (w, some cs) := by
  simp [expiryCase, h]

theorem wrapInt64_of_fits (x : Int) (h0 : 0 ≤ x) (h1 : x ≤ 2 ^ 63 - 1) : wrapInt64 x = x := by
  unfold wrapInt64
  rw [Int.emod_eq_of_lt (by omega) (by omega)]
  omega

theorem expiryCase_digits_unit (env : Env) (w : World) (cs : StringMap) (ds : List Char)
    (u : Char) (unitNs : Int) (hds : ds ≠ [])
    (hdig : ∀ c ∈ ds, 48 ≤ c.toNat ∧ c.toNat ≤ 57)
    (hu : (u, unitNs) ∈ specUnits)
    (hfit : (decimalValue ds : Int) * unitNs ≤ 2 ^ 63 - 1) :
    expiryCase env w cs (String.mk (ds ++ [u])) =
      ({ w with clockReads := w.clockReads + 1 },
        some (cs.set "expires_at" (env.formatRFC3339Nano
          (env.now w.clockReads + (decimalValue ds : Int) * unitNs)))) := by
  have hunit : isUnitChar u = true ∧ u.toNat ≤ 127 ∧ 1000000000 ≤ unitNs := by
    simp only [specUnits, List.mem_cons, Prod.mk.injEq, List.mem_singleton, List.not_mem_nil,
      or_false] at hu
    rcases hu with ⟨h, h2⟩ | ⟨h, h2⟩ | ⟨h, h2⟩ <;> subst h <;> subst h2 <;> decide
  have hdc : ∀ c ∈ ds, isDigitChar c = true := by
    intro c hc
    have := hdig c hc
    simp only [isDigitChar, decide_eq_true_eq]
    exact this
  have hascii : ∀ c ∈ ds ++ [u], c.toNat ≤ 127 := by
    intro c hc
    rcases List.mem_append.1 hc with h | h
    · have := hdig c h
      omega
    · simp only [List.mem_singleton] at h
      subst h
      exact hunit.2.1
  have hm : regexpMatchString (String.mk (ds ++ [u])) = true :=
    matchAnywhere_digits_unit ds u hds hdc hunit.1
  have hb := goBytes_ascii (ds ++ [u]) hascii
  have hn0 : (0 : Int) ≤ (decimalValue ds : Int) := Int.ofNat_nonneg _
  have hval : (decimalValue ds : Int) ≤ 2 ^ 63 - 1 := by nlinarith [hunit.2.2]
  have hvalN : decimalValue ds ≤ 2 ^ 63 - 1 := by omega
  have hat := Atoi_digits ds hds hdig hvalN
  have hlen : ((ds ++ [u]).map Char.toNat).length - 1 = ds.length := by simp
  have htake : ((ds ++ [u]).map Char.toNat).take ds.length = ds.map Char.toNat := by simp
  have hget : ((ds ++ [u]).map Char.toNat).getD ds.length 0 = u.toNat := by
    simp [List.getD_eq_getElem?_getD, List.getElem?_append_right]
  have hwrap : ∀ k : Int, k = unitNs → durationMul k (decimalValue ds : Int) =
      (decimalValue ds : Int) * unitNs := by
    intro k hk
    subst hk
    unfold durationMul
    rw [wrapInt64_of_fits _ (by nlinarith [hunit.2.2]) (by rw [mul_comm]; exact hfit)]
    ring
  simp only [expiryCase, hm, if_true, hb, hlen, htake, hat, hget]
  simp only [specUnits, List.mem_cons, Prod.mk.injEq, List.mem_singleton, List.not_mem_nil,
    or_false] at hu
  rcases hu with ⟨h, h2⟩ | ⟨h, h2⟩ | ⟨h, h2⟩
  · subst h
    rw [hwrap timeSecond (by rw [h2]; rfl)]
    simp [timeAdd]
  · subst h
    rw [hwrap timeMinute (by rw [h2]; rfl)]
    simp [timeAdd]
  · subst h
    rw [hwrap timeHour (by rw [h2]; rfl)]
    simp [timeAdd]

theorem StatusSetCustomCmd_Execute_at_flag (env : Env) (w : World) (pre : List String)
    (suffix : List String) (hbot : w.State.User.Bot = false) (hsuffix : suffix ≠ [])
    (hpre : ∀ tok ∈ pre, tok ∉ flagSpellings) :
    StatusSetCustomCmd.Execute env w (pre ++ suffix) =
      finishLoop env (flagLoop env (pre ++ suffix) suffix pre.length
        (w.enter Handler.setCustom (pre ++ suffix)) []) := by
  rw [StatusSetCustomCmd_Execute_nonbot env w _ hbot (by simp [hsuffix])]
  have h := flagLoop_skip env [] pre suffix (w.enter Handler.setCustom (pre ++ suffix)) [] hpre
  simp only [List.nil_append, List.length_nil, Nat.zero_add] at h
  rw [h]

theorem utf8EncodeChar_length_pos (c : Char) : 0 < (utf8EncodeChar c).length := by
  unfold utf8EncodeChar
  simp only []
  split_ifs <;> simp

theorem utf8EncodeChar_unit (u : Char) (hu : isUnitChar u = true) :
    utf8EncodeChar u = [u.toNat] ∧ (u.toNat = 's'.toNat ∨ u.toNat = 'm'.toNat ∨
      u.toNat = 'h'.toNat) := by
  simp only [isUnitChar, Bool.or_eq_true, beq_iff_eq] at hu
  rcases hu with (h | h) | h <;> subst h <;> decide

theorem parseDigits_some_bytes (xs : List Nat) (acc n : Nat)
    (h : parseDigits xs acc = some n) : ∀ x ∈ xs, 48 ≤ x ∧ x ≤ 57 := by
  induction xs generalizing acc with
  | nil => simp
  | cons b bs ih =>
    by_cases hb : 48 ≤ b ∧ b ≤ 57
    · simp only [parseDigits, hb, and_self, if_true] at h
      intro x hx
      rcases List.mem_cons.1 hx with hx | hx
      · subst hx
        exact hb
      · exact ih _ h x hx
    · simp only [parseDigits, hb, if_false] at h
      exact absurd h (by simp)

theorem Atoi_some_bytes (xs : List Nat) (n : Int) (h : Atoi xs = some n) :
    ∀ x ∈ xs, x = 43 ∨ x = 45 ∨ (48 ≤ x ∧ x ≤ 57) := by
  cases xs with
  | nil => simp [Atoi] at h
  | cons b rest =>
    by_cases h43 : b = 43
    · subst h43
      cases rest with
      | nil => simp [Atoi] at h
      | cons r rs =>
        simp only [Atoi, if_true] at h
        cases hp : parseDigits (r :: rs) 0 with
        | none => simp [hp] at h
        | some m =>
          intro x hx
          rcases List.mem_cons.1 hx with hx | hx
          · exact Or.inl hx
          · exact Or.inr (Or.inr (parseDigits_some_bytes _ _ _ hp x hx))
    · by_cases h45 : b = 45
      · subst h45
        cases rest with
        | nil => simp [Atoi] at h
        | cons r rs =>
          simp only [Atoi, if_true] at h
          cases hp : parseDigits (r :: rs) 0 with
          | none => simp [hp] at h
          | some m =>
            intro x hx
            rcases List.mem_cons.1 hx with hx | hx
            · exact Or.inr (Or.inl hx)
            · exact Or.inr (Or.inr (parseDigits_some_bytes _ _ _ hp x hx))
      · simp only [Atoi, h43, h45, if_false] at h
        cases hp : parseDigits (b :: rest) 0 with
        | none => simp [hp] at h
        | some m =>
          intro x hx
          exact Or.inr (Or.inr (parseDigits_some_bytes _ _ _ hp x hx))

theorem unit_byte_is_last (t : String) (n : Int)
    (hm : regexpMatchString t = true)
    (hat : Atoi ((goBytes t).take ((goBytes t).length - 1)) = some n) :
    ∃ u, (u = 's' ∨ u = 'm' ∨ u = 'h') ∧ t.data.getLast? = some u ∧
      (goBytes t).getD ((goBytes t).length - 1) 0 = u.toNat := by
  obtain ⟨a, d, u, b, he, -, hu⟩ := matchAnywhere_decompose t.data hm
  obtain ⟨henc, hval⟩ := utf8EncodeChar_unit u hu
  have hbytes : goBytes t =
      (a ++ [d]).flatMap utf8EncodeChar ++ u.toNat :: b.flatMap utf8EncodeChar := by
    have : a ++ d :: u :: b = (a ++ [d]) ++ u :: b := by simp
    simp only [goBytes, he, this]
    rw [List.flatMap_append, List.flatMap_cons, henc]
    rfl
  have hu3 : u = 's' ∨ u = 'm' ∨ u = 'h' := by
    simp only [isUnitChar, Bool.or_eq_true, beq_iff_eq] at hu
    tauto
  cases b with
  | nil =>
    refine ⟨u, hu3, ?_, ?_⟩
    · rw [he]
      have : a ++ [d, u] = (a ++ [d]) ++ [u] := by simp
      rw [this, List.getLast?_concat]
    · rw [hbytes]
      simp only [List.flatMap_nil, List.length_append, List.length_singleton,
        Nat.add_sub_cancel]
      rw [List.getD_append_right _ _ _ _ (Nat.le_refl _)]
      simp
  | cons c b' =>
    exfalso
    have hpos := utf8EncodeChar_length_pos c
    have hB : 0 < ((c :: b').flatMap utf8EncodeChar).length := by
      rw [List.flatMap_cons, List.length_append]
      omega
    have hmem : u.toNat ∈ (goBytes t).take ((goBytes t).length - 1) := by
      rw [hbytes]
      have hlen : ((a ++ [d]).flatMap utf8EncodeChar ++
          u.toNat :: (c :: b').flatMap utf8EncodeChar).length - 1 =
          ((a ++ [d]).flatMap utf8EncodeChar).length +
            (((c :: b').flatMap utf8EncodeChar).length - 1 + 1) := by
        simp only [List.length_append, List.length_cons]
        omega
      rw [hlen, List.take_append, List.take_succ_cons]
      simp
    have := Atoi_some_bytes _ _ hat _ hmem
    have h1 : 's'.toNat = 115 := by decide
    have h2 : 'm'.toNat = 109 := by decide
    have h3 : 'h'.toNat = 104 := by decide
    omega

theorem expiryCase_outcome (env : Env) (w : World) (cs : StringMap) (v : String) :
    expiryCase env w cs v = (w, some cs) ∨
    expiryCase env w cs v = (w.write ("[" ++ env.errorColor ++ "]Invalid expiry\n"), none) ∨
    ∃ x, expiryCase env w cs v =
      ({ w with clockReads := w.clockReads + 1 }, some (cs.set "expires_at" x)) := by
  by_cases hm : regexpMatchString v = true
  · cases hat : Atoi ((goBytes v).take ((goBytes v).length - 1)) with
    | none =>
      right; left
      simp [expiryCase, hm, hat]
    | some n =>
      right; right
      obtain ⟨u, hu, -, hget⟩ := unit_byte_is_last v n hm hat
      simp only [expiryCase, hm, if_true, hat, hget]
      rcases hu with h | h | h <;> subst h
      · exact ⟨env.formatRFC3339Nano (timeAdd (env.now w.clockReads)
          (durationMul timeSecond n)), by simp⟩
      · exact ⟨env.formatRFC3339Nano (timeAdd (env.now w.clockReads)
          (durationMul timeMinute n)), by simp⟩
      · exact ⟨env.formatRFC3339Nano (timeAdd (env.now w.clockReads)
          (durationMul timeHour n)), by simp⟩
  · left
    simp [expiryCase, hm]

theorem matchAnywhere_of_decompose (a : List Char) (d u : Char) (b : List Char)
    (hd : isDigitChar d = true) (hu : isUnitChar u = true) :
    matchAnywhere (a ++ d :: u :: b) = true := by
  induction a with
  | nil =>
    simp [matchAnywhere, matchHere, matchAfterDigit, hd, hu, isUnitChar_not_digit u hu]
  | cons c a ih =>
    rw [List.cons_append, matchAnywhere, ih, Bool.or_true]

theorem sameButClock_refl (w : World) : sameButClock w w := rfl

theorem sameButClock_trans (w w₁ w₂ : World) (h₁ : sameButClock w w₁)
    (h₂ : sameButClock w₁ w₂) : sameButClock w w₂ := by
  unfold sameButClock at *
  rw [h₂, h₁]

theorem flagLoop_step_cases (env : Env) (ps pre : List String) (tok v : String)
    (rest : List String) (w : World) (cs : StringMap) (hps : ps = pre ++ tok :: v :: rest) :
    (∃ w₁ cs₁, sameButClock w w₁ ∧
      flagLoop env ps (tok :: v :: rest) pre.length w cs =
        flagLoop env ps (v :: rest) (pre.length + 1) w₁ cs₁) ∨
    (∃ msg, msg ∈ [invalidEmojiMessage env, invalidExpiryMessage env] ∧
      flagLoop env ps (tok :: v :: rest) pre.length w cs = .returned (w.write msg)) := by
  subst hps
  by_cases hs : tok = "-s" ∨ tok = "--status"
  · exact Or.inl ⟨w, _, sameButClock_refl w, flagLoop_status_step env pre tok v rest w cs hs⟩
  by_cases he : tok = "-e" ∨ tok = "--emoji"
  · rw [flagLoop_emoji_step env pre tok v rest w cs he]
    by_cases hc : env.containsEmoji v = true
    · exact Or.inl ⟨w, cs.set "emoji_name" v, sameButClock_refl w, by simp [hc]⟩
    · by_cases hr : env.replace v = v
      · exact Or.inr ⟨invalidEmojiMessage env, by simp, by simp [hc, hr, invalidEmojiMessage]⟩
      · exact Or.inl ⟨w, cs.set "emoji_name" (env.replace v), sameButClock_refl w,
          by simp [hc, hr]⟩
  by_cases hi : tok = "-i" ∨ tok = "--expire" ∨ tok = "--expiry"
  · rw [flagLoop_expiry_step env pre tok v rest w cs hi]
    rcases expiryCase_outcome env w cs v with h | h | ⟨x, h⟩
    · rw [h]
      exact Or.inl ⟨w, cs, sameButClock_refl w, rfl⟩
    · rw [h]
      exact Or.inr ⟨invalidExpiryMessage env, by simp, rfl⟩
    · rw [h]
      exact Or.inl ⟨{ w with clockReads := w.clockReads + 1 }, cs.set "expires_at" x,
        by unfold sameButClock; rfl, rfl⟩
  · have hn : tok ∉ flagSpellings := by
      simp only [flagSpellings, List.mem_cons, List.mem_singleton, List.not_mem_nil, or_false]
      tauto
    exact Or.inl ⟨w, cs, sameButClock_refl w,
      flagLoop_skip_one env pre tok (v :: rest) w cs hn⟩

theorem flagLoop_prefix_cases (env : Env) (ps pre mid suffix : List String) (w : World)
    (cs : StringMap) (hps : ps = pre ++ mid ++ suffix) (hsuffix : suffix ≠ []) :
    (∃ w₁ cs₁, sameButClock w w₁ ∧
      flagLoop env ps (mid ++ suffix) pre.length w cs =
        flagLoop env ps suffix (pre.length + mid.length) w₁ cs₁) ∨
    (∃ w₁ msg, sameButClock w w₁ ∧
      msg ∈ [invalidEmojiMessage env, invalidExpiryMessage env] ∧
      flagLoop env ps (mid ++ suffix) pre.length w cs = .returned (w₁.write msg)) := by
  induction mid generalizing pre w cs with
  | nil => exact Or.inl ⟨w, cs, sameButClock_refl w, by simp⟩
  | cons tok mid ih =>
    obtain ⟨v, r, hvr⟩ : ∃ v r, mid ++ suffix = v :: r := by
      cases hms : mid ++ suffix with
      | nil =>
        have := List.append_eq_nil.1 hms
        exact absurd this.2 hsuffix
      | cons v r => exact ⟨v, r, rfl⟩
    have e1 : (tok :: mid) ++ suffix = tok :: v :: r := by simp [hvr]
    have hps1 : ps = pre ++ tok :: v :: r := by rw [hps, ← hvr]; simp
    have hps2 : ps = (pre ++ [tok]) ++ mid ++ suffix := by rw [hps]; simp
    have hl : pre.length + 1 = (pre ++ [tok]).length := by simp
    have hl2 : (pre ++ [tok]).length + mid.length = pre.length + (tok :: mid).length := by
      simp only [List.length_append, List.length_cons, List.length_nil]
      omega
    rw [e1]
    rcases flagLoop_step_cases env ps pre tok v r w cs hps1 with
      ⟨w₁, cs₁, hw₁, hstep⟩ | ⟨msg, hmsg, hstep⟩
    · rw [hstep, ← hvr, hl]
      rcases ih (pre ++ [tok]) w₁ cs₁ hps2 with
        ⟨w₂, cs₂, hw₂, hrest⟩ | ⟨w₂, msg, hw₂, hmsg, hrest⟩
      · exact Or.inl ⟨w₂, cs₂, sameButClock_trans w w₁ w₂ hw₁ hw₂, by rw [hrest, hl2]⟩
      · exact Or.inr ⟨w₂, msg, sameButClock_trans w w₁ w₂ hw₁ hw₂, hmsg, hrest⟩
    · exact Or.inr ⟨w, msg, sameButClock_refl w, hmsg, hstep⟩

theorem flagLoop_status_last (env : Env) (pre : List String) (flag : String)
    (w : World) (cs : StringMap) (hflag : flag = "-s" ∨ flag = "--status") :
    flagLoop env (pre ++ [flag]) [flag] pre.length w cs =
      .returned (w.write (missingStatusMessage env)) := by
  have h2 : ¬ (pre.length ≠ (pre ++ [flag]).length - 1) := by simp
  rw [flagLoop]
  simp only [hflag, if_true, h2, if_false, missingStatusMessage]

theorem flagLoop_emoji_last (env : Env) (pre : List String) (flag : String)
    (w : World) (cs : StringMap) (hflag : flag = "-e" ∨ flag = "--emoji") :
    flagLoop env (pre ++ [flag]) [flag] pre.length w cs = .completed w cs := by
  have h2 : ¬ (pre.length ≠ (pre ++ [flag]).length - 1) := by simp
  have hs : ¬ (flag = "-s" ∨ flag = "--status") := by
    rcases hflag with h | h <;> subst h <;> decide
  rw [flagLoop]
  simp only [hs, hflag, if_true, h2, if_false, flagLoop]

theorem StringMap_set_keys (cs : StringMap) (key value : String) :
    ∀ k ∈ (cs.set key value).map Prod.fst, k = key ∨ k ∈ cs.map Prod.fst := by
  induction cs with
  | nil => simp [StringMap.set]
  | cons e cs ih =>
    obtain ⟨k₀, v₀⟩ := e
    by_cases hk : k₀ = key
    · simp [StringMap.set, hk]
    · intro k hmem
      simp only [StringMap.set, hk, if_false, List.map_cons, List.mem_cons] at hmem ⊢
      rcases hmem with h | h
      · exact Or.inr (Or.inl h)
      · rcases ih k h with h | h
        · exact Or.inl h
        · exact Or.inr (Or.inr h)

theorem flagLoop_completed (env : Env) (ps rest : List String) (index : Nat) (w : World)
    (cs : StringMap) (w₁ : World) (cs₁ : StringMap)
    (h : flagLoop env ps rest index w cs = .completed w₁ cs₁) :
    sameButClock w w₁ ∧
    ∀ k ∈ cs₁.map Prod.fst, k ∈ specFieldNames ∨ k ∈ cs.map Prod.fst := by
  induction rest generalizing index w cs with
  | nil =>
    simp only [flagLoop, LoopResult.completed.injEq] at h
    obtain ⟨rfl, rfl⟩ := h
    exact ⟨sameButClock_refl _, fun k hk => Or.inr hk⟩
  | cons tok rest ih =>
    have hset : ∀ (w₀ : World) (key value : String), key ∈ specFieldNames →
        sameButClock w w₀ →
        flagLoop env ps rest (index + 1) w₀ (cs.set key value) = .completed w₁ cs₁ →
        sameButClock w w₁ ∧
          ∀ k ∈ cs₁.map Prod.fst, k ∈ specFieldNames ∨ k ∈ cs.map Prod.fst := by
      intro w₀ key value hkey hw₀ hrun
      obtain ⟨hsame, hkeys⟩ := ih _ _ _ hrun
      refine ⟨sameButClock_trans _ _ _ hw₀ hsame, ?_⟩
      intro k hk
      rcases hkeys k hk with h1 | h1
      · exact Or.inl h1
      · rcases StringMap_set_keys cs key value k h1 with h2 | h2
        · exact Or.inl (h2 ▸ hkey)
        · exact Or.inr h2
    rw [flagLoop] at h
    split_ifs at h with hs hidx he hidx2 hi
    · cases hv : ps[index + 1]? with
      | none => simp [hv] at h
      | some v =>
        simp only [hv] at h
        exact hset w "text" v (by decide) (sameButClock_refl _) h
    · cases hv : ps[index + 1]? with
      | none => simp [hv] at h
      | some v =>
        simp only [hv] at h
        split_ifs at h with hc hr
        · exact hset w "emoji_name" v (by decide) (sameButClock_refl _) h
        · exact hset w "emoji_name" _ (by decide) (sameButClock_refl _) h
    · exact ih _ _ _ h
    · cases hv : ps[index + 1]? with
      | none => simp [hv] at h
      | some v =>
        simp only [hv] at h
        rcases expiryCase_outcome env w cs v with hx | hx | ⟨x, hx⟩
        · rw [hx] at h
          exact ih _ _ _ h
        · rw [hx] at h
          simp at h
        · rw [hx] at h
          exact hset _ "expires_at" x (by decide) (by unfold sameButClock; rfl) h
    · exact ih _ _ _ h

theorem hexValue_hexDigit (k : Nat) (hk : k < 16) : hexValue (hexDigit k) = some k := by
  interval_cases k <;> decide

theorem readStringBody_quote (rest : List Char) :
    readStringBody ('"' :: rest) = some ([], rest) := by
  rw [readStringBody.eq_def]
  simp

theorem readStringBody_plain (c : Char) (tail : List Char) (h1 : c ≠ '"') (h2 : c ≠ '\\') :
    readStringBody (c :: tail) =
      match readStringBody tail with
      | some (s, r) => some (c :: s, r)
      | none => none := by
  rw [readStringBody.eq_def]
  simp [h1, h2]

theorem readStringBody_short (e x : Char) (tail : List Char) (he : e ≠ 'u')
    (hx : unescapeChar e = some x) :
    readStringBody ('\\' :: e :: tail) =
      match readStringBody tail with
      | some (s, r) => some (x :: s, r)
      | none => none := by
  rw [readStringBody.eq_def]
  simp only [show ¬ ('\\' = '"') by decide, if_false, if_true, he, hx]
  cases readStringBody tail with
  | none => rfl
  | some p => rfl

theorem readStringBody_long (h₁ h₂ h₃ h₄ : Char) (x₁ x₂ x₃ x₄ : Nat) (tail : List Char)
    (e₁ : hexValue h₁ = some x₁) (e₂ : hexValue h₂ = some x₂) (e₃ : hexValue h₃ = some x₃)
    (e₄ : hexValue h₄ = some x₄) :
    readStringBody ('\\' :: 'u' :: h₁ :: h₂ :: h₃ :: h₄ :: tail) =
      match readStringBody tail with
      | some (s, r) => some (Char.ofNat (((x₁ * 16 + x₂) * 16 + x₃) * 16 + x₄) :: s, r)
      | none => none := by
  rw [readStringBody.eq_def]
  simp only [show ¬ ('\\' = '"') by decide, if_false, if_true, e₁, e₂, e₃, e₄]
  cases readStringBody tail with
  | none => rfl
  | some p => rfl

theorem readStringBody_jsonUnicodeEscape (n : Nat) (hn : n < 256) (tail : List Char) :
    readStringBody (jsonUnicodeEscape n ++ tail) =
      match readStringBody tail with
      | some (s, r) => some (Char.ofNat n :: s, r)
      | none => none := by
  have h1 : hexValue (hexDigit (n / 16)) = some (n / 16) := hexValue_hexDigit _ (by omega)
  have h2 : hexValue (hexDigit (n % 16)) = some (n % 16) := hexValue_hexDigit _ (by omega)
  have h0 : hexValue '0' = some 0 := by decide
  have hv : ((0 * 16 + 0) * 16 + n / 16) * 16 + n % 16 = n := by omega
  simp only [jsonUnicodeEscape, List.cons_append, List.nil_append]
  rw [readStringBody_long _ _ _ _ _ _ _ _ tail h0 h0 h1 h2, hv]

theorem readStringBody_escape (cs rest : List Char) :
    readStringBody (cs.flatMap jsonEscapeChar ++ '"' :: rest) = some (cs, rest) := by
  induction cs with
  | nil => exact readStringBody_quote rest
  | cons c cs ih =>
    rw [List.flatMap_cons, List.append_assoc]
    generalize cs.flatMap jsonEscapeChar ++ '"' :: rest = tail at ih ⊢
    unfold jsonEscapeChar
    split_ifs with h1 h2 h3 h4 h5 h6 h7 h8 h9
    · subst h1
      rw [List.cons_append, List.cons_append, List.nil_append,
        readStringBody_short '"' '"' tail (by decide) (by decide), ih]
    · subst h2
      rw [List.cons_append, List.cons_append, List.nil_append,
        readStringBody_short '\\' '\\' tail (by decide) (by decide), ih]
    · subst h3
      rw [List.cons_append, List.cons_append, List.nil_append,
        readStringBody_short 'n' '\n' tail (by decide) (by decide), ih]
    · subst h4
      rw [List.cons_append, List.cons_append, List.nil_append,
        readStringBody_short 'r' '\r' tail (by decide) (by decide), ih]
    · subst h5
      rw [List.cons_append, List.cons_append, List.nil_append,
        readStringBody_short 't' '\t' tail (by decide) (by decide), ih]
    · rw [readStringBody_jsonUnicodeEscape _ (by omega), ih, Char.ofNat_toNat]
    · have hlt : c.toNat < 256 := by
        rcases h7 with h | h | h <;> subst h <;> decide
      rw [readStringBody_jsonUnicodeEscape _ hlt, ih, Char.ofNat_toNat]
    · have hc : c = Char.ofNat 0x2028 := by rw [← h8, Char.ofNat_toNat]
      have hx : Char.ofNat (((2 * 16 + 0) * 16 + 2) * 16 + 8) = c := by rw [hc]
      simp only [List.cons_append, List.nil_append]
      rw [readStringBody_long '2' '0' '2' '8' 2 0 2 8 tail (by decide) (by decide)
        (by decide) (by decide), ih, hx]
    · have hc : c = Char.ofNat 0x2029 := by rw [← h9, Char.ofNat_toNat]
      have hx : Char.ofNat (((2 * 16 + 0) * 16 + 2) * 16 + 9) = c := by rw [hc]
      simp only [List.cons_append, List.nil_append]
      rw [readStringBody_long '2' '0' '2' '9' 2 0 2 9 tail (by decide) (by decide)
        (by decide) (by decide), ih, hx]
    · rw [List.cons_append, List.nil_append, readStringBody_plain c tail h1 h2, ih]

theorem jsonString_data (s : String) :
    (jsonString s).data = '"' :: (s.data.flatMap jsonEscapeChar ++ ['"']) := by
  simp only [jsonString, String.data_append]
  rfl

theorem readString_jsonString (s : String) (rest : List Char) :
    readString ((jsonString s).data ++ rest) = some (s.data, rest) := by
  rw [jsonString_data]
  simp only [List.cons_append, List.append_assoc, List.nil_append, readString, if_true]
  exact readStringBody_escape s.data rest

theorem jsonMembers_cons_data (k v : String) (es : List (String × String)) :
    (jsonMembers ((k, v) :: es)).data =
      (jsonString k).data ++ ':' :: ((jsonString v).data ++
        (match es with
         | [] => []
         | e :: es₁ => ',' :: (jsonMembers (e :: es₁)).data)) := by
  have hc : (":" : String).data = [':'] := rfl
  have hm : ("," : String).data = [','] := rfl
  cases es with
  | nil =>
    simp only [jsonMembers, String.data_append, List.append_nil, hc, List.append_assoc,
      List.singleton_append]
  | cons e es₁ =>
    simp only [jsonMembers, String.data_append, List.append_assoc, hc, hm,
      List.singleton_append, List.cons_append, List.nil_append]

theorem readMembers_jsonMembers (es : List (String × String)) (e : String × String)
    (fuel : Nat) (rest : List Char) (hfuel : (e :: es).length ≤ fuel) :
    readMembers fuel ((jsonMembers (e :: es)).data ++ '\x7d' :: rest) =
      some (e :: es, rest) := by
  induction es generalizing e fuel with
  | nil =>
    obtain ⟨k, v⟩ := e
    obtain ⟨fuel, rfl⟩ : ∃ f, fuel = f + 1 := ⟨fuel - 1, by simp at hfuel; omega⟩
    rw [jsonMembers_cons_data]
    simp only [List.append_nil, List.append_assoc, List.cons_append]
    rw [readMembers, readString_jsonString]
    simp only [if_true, readString_jsonString]
    simp
  | cons e₁ es ih =>
    obtain ⟨k, v⟩ := e
    obtain ⟨fuel, rfl⟩ : ∃ f, fuel = f + 1 := ⟨fuel - 1, by simp at hfuel; omega⟩
    have hf : (e₁ :: es).length ≤ fuel := by
      simp only [List.length_cons] at hfuel ⊢
      omega
    rw [jsonMembers_cons_data]
    simp only [List.append_assoc, List.cons_append]
    rw [readMembers, readString_jsonString]
    simp only [if_true, readString_jsonString, ih e₁ fuel hf]

theorem jsonMembers_length (l : List (String × String)) :
    l.length ≤ (jsonMembers l).data.length := by
  induction l with
  | nil => simp
  | cons e es ih =>
    obtain ⟨k, v⟩ := e
    rw [jsonMembers_cons_data]
    cases es with
    | nil =>
      simp only [List.length_append, List.length_cons, jsonString_data, List.length_nil]
      omega
    | cons e₁ es₁ =>
      simp only [List.length_append, List.length_cons, jsonString_data] at ih ⊢
      omega

theorem readObject_jsonMarshalMap (m : StringMap) (rest : List Char) :
    readObject ((jsonMarshalMap m).data ++ rest) = some (sortByKey m, rest) := by
  have hdata : (jsonMarshalMap m).data =
      '\x7b' :: ((jsonMembers (sortByKey m)).data ++ ['\x7d']) := by
    simp only [jsonMarshalMap, String.data_append]
    rfl
  rw [hdata]
  cases hl : sortByKey m with
  | nil =>
    simp [jsonMembers, readObject]
  | cons e es =>
    obtain ⟨k, v⟩ := e
    have hlen := jsonMembers_length ((k, v) :: es)
    have hread := readMembers_jsonMembers es (k, v)
      (((jsonMembers ((k, v) :: es)).data ++ '\x7d' :: rest).length) rest
      (by rw [List.length_append]; omega)
    obtain ⟨tail, htail⟩ : ∃ tail,
        (jsonMembers ((k, v) :: es)).data ++ '\x7d' :: rest = '"' :: tail := by
      rw [jsonMembers_cons_data, jsonString_data]
      exact ⟨_, rfl⟩
    rw [htail] at hread
    simp only [List.cons_append, List.append_assoc, List.nil_append]
    rw [htail]
    simp only [readObject, if_true, show ¬ ('"' = '\x7d') by decide, if_false]
    exact hread

theorem decodeRequestBody_jsonMarshalRequest (m : StringMap) :
    decodeRequestBody (jsonMarshalRequest m) = some (sortByKey m) := by
  have hdata : (jsonMarshalRequest m).data =
      '\x7b' :: ((jsonString "custom_status").data ++
        ':' :: ((jsonMarshalMap m).data ++ ['\x7d'])) := by
    simp only [jsonMarshalRequest, String.data_append, List.append_assoc]
    rfl
  simp only [decodeRequestBody, hdata, if_true, readString_jsonString,
    readObject_jsonMarshalMap, and_self]

theorem insertByKey_perm (e : String × String) (l : List (String × String)) :
    (insertByKey e l).Perm (e :: l) := by
  induction l with
  | nil => exact List.Perm.refl _
  | cons x xs ih =>
    by_cases h : bytesLt (goBytes e.1) (goBytes x.1) = true
    · simp [insertByKey, h]
    · simp only [insertByKey, h, if_false]
      exact ((List.Perm.cons x ih).trans (List.Perm.swap e x xs))

theorem sortByKey_perm (l : List (String × String)) : (sortByKey l).Perm l := by
  induction l with
  | nil => exact List.Perm.refl _
  | cons e es ih =>
    exact (insertByKey_perm e (sortByKey es)).trans (List.Perm.cons e ih)

theorem StringMap_set_nodup (cs : StringMap) (key value : String)
    (h : (cs.map Prod.fst).Nodup) : ((cs.set key value).map Prod.fst).Nodup := by
  induction cs with
  | nil => simp [StringMap.set]
  | cons e cs ih =>
    obtain ⟨k₀, v₀⟩ := e
    simp only [List.map_cons, List.nodup_cons] at h
    by_cases hk : k₀ = key
    · simp only [StringMap.set, hk, if_true, List.map_cons, List.nodup_cons]
      rw [← hk]
      exact h
    · simp only [StringMap.set, hk, if_false, List.map_cons, List.nodup_cons]
      refine ⟨?_, ih h.2⟩
      intro hmem
      rcases StringMap_set_keys cs key value k₀ hmem with h1 | h1
      · exact hk h1
      · exact h.1 h1

theorem flagLoop_completed_nodup (env : Env) (ps rest : List String) (index : Nat)
    (w : World) (cs : StringMap) (w₁ : World) (cs₁ : StringMap)
    (hcs : (cs.map Prod.fst).Nodup)
    (h : flagLoop env ps rest index w cs = .completed w₁ cs₁) :
    (cs₁.map Prod.fst).Nodup := by
  induction rest generalizing index w cs with
  | nil =>
    simp only [flagLoop, LoopResult.completed.injEq] at h
    obtain ⟨-, rfl⟩ := h
    exact hcs
  | cons tok rest ih =>
    rw [flagLoop] at h
    split_ifs at h with hs hidx he hidx2 hi
    · cases hv : ps[index + 1]? with
      | none => simp [hv] at h
      | some v =>
        simp only [hv] at h
        exact ih _ _ _ (StringMap_set_nodup cs _ _ hcs) h
    · cases hv : ps[index + 1]? with
      | none => simp [hv] at h
      | some v =>
        simp only [hv] at h
        split_ifs at h with hc hr
        · exact ih _ _ _ (StringMap_set_nodup cs _ _ hcs) h
        · exact ih _ _ _ (StringMap_set_nodup cs _ _ hcs) h
    · exact ih _ _ _ hcs h
    · cases hv : ps[index + 1]? with
      | none => simp [hv] at h
      | some v =>
        simp only [hv] at h
        rcases expiryCase_outcome env w cs v with hx | hx | ⟨x, hx⟩
        · rw [hx] at h
          exact ih _ _ _ hcs h
        · rw [hx] at h
          simp at h
        · rw [hx] at h
          exact ih _ _ _ (StringMap_set_nodup cs _ _ hcs) h
    · exact ih _ _ _ hcs h

theorem StatusSetCustomCmd_Execute_prefix_cases (env : Env) (w : World)
    (pre suffix : List String) (hbot : w.State.User.Bot = false) (hsuffix : suffix ≠ []) :
    (∃ w₁ cs₁, sameButClock (w.enter Handler.setCustom (pre ++ suffix)) w₁ ∧
      StatusSetCustomCmd.Execute env w (pre ++ suffix) =
        finishLoop env (flagLoop env (pre ++ suffix) suffix pre.length w₁ cs₁)) ∨
    (∃ w₁ msg, sameButClock (w.enter Handler.setCustom (pre ++ suffix)) w₁ ∧
      msg ∈ [invalidEmojiMessage env, invalidExpiryMessage env] ∧
      StatusSetCustomCmd.Execute env w (pre ++ suffix) = .ok (w₁.write msg)) := by
  rw [StatusSetCustomCmd_Execute_nonbot env w _ hbot (by simp [hsuffix])]
  have h := flagLoop_prefix_cases env (pre ++ suffix) [] pre suffix
    (w.enter Handler.setCustom (pre ++ suffix)) [] (by simp) hsuffix
  simp only [List.length_nil, Nat.zero_add] at h
  rcases h with ⟨w₁, cs₁, hw₁, hrun⟩ | ⟨w₁, msg, hw₁, hmsg, hrun⟩
  · exact Or.inl ⟨w₁, cs₁, hw₁, by rw [hrun]⟩
  · exact Or.inr ⟨w₁, msg, hw₁, hmsg, by rw [hrun]; rfl⟩

theorem sameButClock_write (w w₁ : World) (msg : String) (h : sameButClock w w₁) :
    (w₁.write msg).sent = w.sent ∧ (w₁.write msg).written = w.written ++ [msg] ∧
    (w₁.write msg).State = w.State ∧ (w₁.write msg).updateCalls = w.updateCalls := by
  unfold sameButClock at h
  rw [h]
  simp [World.write]

/-! ## C1: a flag of the expiry family as the last token -/

/-- C1 (failing input): for a session that is not a bot, when a flag of the
`-i`/`--expire`/`--expiry` family is the last token and no token before it spells a
flag, `StatusSetCustomCmd.Execute` does not return normally: reading
`parameters[index+1]` panics with an index out of range. -/
theorem StatusSetCustomCmd_Execute_expiry_flag_last_panics (env : Env) (w : World)
    (pre : List String) (flag : String)
    (hbot : w.State.User.Bot = false)
    (hpre : ∀ tok ∈ pre, tok ∉ flagSpellings)
    (hflag : flag = "-i" ∨ flag = "--expire" ∨ flag = "--expiry") :
    StatusSetCustomCmd.Execute env w (pre ++ [flag]) =
      .error (.indexOutOfRange (pre.length + 1) (pre.length + 1)) := by
  rw [StatusSetCustomCmd_Execute_nonbot env w _ hbot (by simp)]
  have h := flagLoop_skip env [] pre [flag] (w.enter Handler.setCustom (pre ++ [flag])) [] hpre
  simp only [List.nil_append, List.length_nil, Nat.zero_add] at h
  rw [h, flagLoop_expiry_last env pre flag _ _ hflag]
  rfl

/-- A run of C1: the token list `["-i"]` makes `StatusSetCustomCmd.Execute` panic. -/
theorem StatusSetCustomCmd_Execute_expiry_flag_last_panics_witness :
    StatusSetCustomCmd.Execute sampleEnv (sampleWorld (sampleUser false) []) ["-i"] =
      .error (.indexOutOfRange 1 1) :=
  StatusSetCustomCmd_Execute_expiry_flag_last_panics sampleEnv
    (sampleWorld (sampleUser false) []) [] "-i" rfl (by simp) (Or.inl rfl)

/-! ## C2: value tokens are visited as well -/

/-- C2 (counterexample): on the tokens `-s`, `-e`, `:sun:` the token `-e` is stored as
the text and is then read as the emoji flag: the pass ends with both fields set, and the
request that is sent carries the emoji. -/
theorem flagLoop_value_token_reread_counterexample :
    flagLoop sampleEnv ["-s", "-e", ":sun:"] ["-s", "-e", ":sun:"] 0
        (sampleWorld (sampleUser false) []) [] =
      .completed (sampleWorld (sampleUser false) []) [("text", "-e"), ("emoji_name", "🌞")] ∧
    (StatusSetCustomCmd.Execute sampleEnv (sampleWorld (sampleUser false) [])
        ["-s", "-e", ":sun:"]).map (fun w => w.sent.map Request.Body) =
      .ok ["\x7b\"custom_status\":\x7b\"emoji_name\":\"🌞\",\"text\":\"-e\"\x7d\x7d"] :=
  ⟨rfl, rfl⟩

/-- C2 (amended): the pass visits the tokens one at a time, in order. From a token that
spells no flag it goes on at the next token. From a recognized flag that is followed by
a token `v` it goes on, unless the case of the flag returns, at `v` itself, one position
further, with `v` stored as the text, with the emoji that `v` resolves to stored, or with
the outcome of the expiry case; so `v` is examined as a flag name in its turn. On the
tokens `-s`, `-e`, `:sun:` the pass ends with the text `-e` and the emoji of `:sun:`. -/
theorem flagLoop_advances_one_token (env : Env) (pre : List String) (tok v : String)
    (rest : List String) (w : World) (cs : StringMap) :
    (tok ∉ flagSpellings →
      flagLoop env (pre ++ tok :: rest) (tok :: rest) pre.length w cs =
        flagLoop env (pre ++ tok :: rest) rest (pre.length + 1) w cs) ∧
    (tok = "-s" ∨ tok = "--status" →
      flagLoop env (pre ++ tok :: v :: rest) (tok :: v :: rest) pre.length w cs =
        flagLoop env (pre ++ tok :: v :: rest) (v :: rest) (pre.length + 1) w
          (cs.set "text" v)) ∧
    (tok = "-e" ∨ tok = "--emoji" → env.containsEmoji v = true →
      flagLoop env (pre ++ tok :: v :: rest) (tok :: v :: rest) pre.length w cs =
        flagLoop env (pre ++ tok :: v :: rest) (v :: rest) (pre.length + 1) w
          (cs.set "emoji_name" v)) ∧
    (tok = "-e" ∨ tok = "--emoji" → env.containsEmoji v = false → env.replace v ≠ v →
      flagLoop env (pre ++ tok :: v :: rest) (tok :: v :: rest) pre.length w cs =
        flagLoop env (pre ++ tok :: v :: rest) (v :: rest) (pre.length + 1) w
          (cs.set "emoji_name" (env.replace v))) ∧
    (tok = "-i" ∨ tok = "--expire" ∨ tok = "--expiry" →
      ∀ w₁ cs₁, expiryCase env w cs v = (w₁, some cs₁) →
        flagLoop env (pre ++ tok :: v :: rest) (tok :: v :: rest) pre.length w cs =
          flagLoop env (pre ++ tok :: v :: rest) (v :: rest) (pre.length + 1) w₁ cs₁) ∧
    (env.containsEmoji ":sun:" = false → env.replace ":sun:" ≠ ":sun:" →
      flagLoop env ["-s", "-e", ":sun:"] ["-s", "-e", ":sun:"] 0 w [] =
        .completed w [("text", "-e"), ("emoji_name", env.replace ":sun:")]) := by
  refine ⟨fun h => flagLoop_skip_one env pre tok rest w cs h,
    fun h => flagLoop_status_step env pre tok v rest w cs h, ?_, ?_, ?_, ?_⟩
  · intro h hc
    rw [flagLoop_emoji_step env pre tok v rest w cs h]
    simp [hc]
  · intro h hc hr
    rw [flagLoop_emoji_step env pre tok v rest w cs h]
    simp [hc, hr]
  · intro h w₁ cs₁ hx
    rw [flagLoop_expiry_step env pre tok v rest w cs h, hx]
  · intro hc hr
    have s1 := flagLoop_status_step env [] "-s" "-e" [":sun:"] w [] (Or.inl rfl)
    have s2 := flagLoop_emoji_step env ["-s"] "-e" ":sun:" [] w
      (StringMap.set [] "text" "-e") (Or.inl rfl)
    have s3 := flagLoop_skip_one env ["-s", "-e"] ":sun:" [] w
      (StringMap.set (StringMap.set [] "text" "-e") "emoji_name" (env.replace ":sun:"))
      (by decide)
    simp only [List.nil_append, List.length_nil, List.cons_append, List.length_cons,
      Nat.zero_add, hc, hr, ne_eq, not_false_eq_true, if_true, if_false,
      Bool.false_eq_true] at s1 s2 s3
    rw [s1, s2, s3]
    simp [flagLoop, StringMap.set]

/-- A run of C2 (amended): with the sample emoji table the pass over `-s`, `-e`, `:sun:`
goes on at `-e` after the first step. -/
theorem flagLoop_advances_one_token_witness :
    flagLoop sampleEnv ["-s", "-e", ":sun:"] ["-s", "-e", ":sun:"] 0
        (sampleWorld (sampleUser false) []) [] =
      flagLoop sampleEnv ["-s", "-e", ":sun:"] ["-e", ":sun:"] 1
        (sampleWorld (sampleUser false) []) [("text", "-e")] :=
  (flagLoop_advances_one_token sampleEnv [] "-s" "-e" [":sun:"]
    (sampleWorld (sampleUser false) []) []).2.1 (Or.inl rfl)

/-! ## C3: the router -/

/-- C3: for every token list, `StatusCmd.Execute` is `StatusGetCmd.Execute` without
arguments on the empty list, `StatusSetCmd.Execute` on the rest after a first token
`set` or `update`, `StatusGetCmd.Execute` on the rest after a first token `get`, and
`StatusGetCmd.Execute` on the whole list otherwise; the record of handler calls grows by
exactly that one call. -/
theorem StatusCmd_Execute_dispatch (env : Env) (w : World) (ts : List String) :
    (StatusCmd.Execute env w ts =
      match ts with
      | [] => StatusGetCmd.Execute env w []
      | t :: rest =>
        if t = "set" ∨ t = "update" then StatusSetCmd.Execute env w rest
        else if t = "get" then StatusGetCmd.Execute env w rest
        else StatusGetCmd.Execute env w (t :: rest)) ∧
    (StatusCmd.Execute env w ts).invoked = w.invoked ++
      [match ts with
       | [] => (Handler.get, [])
       | t :: rest =>
         if t = "set" ∨ t = "update" then (Handler.set, rest)
         else if t = "get" then (Handler.get, rest)
         else (Handler.get, t :: rest)] := by
  cases ts with
  | nil => simp [StatusCmd.Execute, StatusGetCmd_Execute_invoked]
  | cons t rest =>
    by_cases h1 : t = "set" ∨ t = "update"
    · simp [StatusCmd.Execute, h1, StatusSetCmd_Execute_invoked]
    · by_cases h2 : t = "get"
      · simp [StatusCmd.Execute, h2, StatusGetCmd_Execute_invoked]
      · simp [StatusCmd.Execute, h1, h2, StatusGetCmd_Execute_invoked]

/-! ## C4: status-set, accepted tokens -/

/-- C4: for a session that is not a bot and a single token whose lower-case form is in
the table of accepted tokens, `StatusSetCmd.Execute` calls `UserUpdateStatus` exactly
once, with the status the table gives, and when that call returns settings and no error
the cached settings are the returned ones. -/
theorem StatusSetCmd_Execute_accepted (env : Env) (w : World) (tok : String) (status : Status)
    (hbot : w.State.User.Bot = false)
    (htok : (env.toLower tok, status) ∈ specStatusTable) :
    (StatusSetCmd.Execute env w [tok]).updateCalls = w.updateCalls ++ [status] ∧
    ∀ s : Settings, env.userUpdateStatus status = (some s, none) →
      (StatusSetCmd.Execute env w [tok]).State.Settings = s := by
  simp only [specStatusTable, List.mem_cons, Prod.mk.injEq, List.mem_singleton,
    List.not_mem_nil, or_false] at htok
  have hb : (w.enter Handler.set [tok]).State.User.Bot = false := hbot
  rcases htok with h | h | h | h | h | h | h <;> obtain ⟨hl, rfl⟩ := h
  all_goals
    refine ⟨?_, ?_⟩
    · simp only [StatusSetCmd.Execute, hb, callUserUpdateStatus]
      simp [hl]
      split <;> (try split) <;> simp [World.write, World.enter]
    · intro s hs
      simp only [StatusSetCmd.Execute, hb, callUserUpdateStatus]
      simp [hl, hs]

/-- A run of C4: the token `IDLE` makes one update call with the idle status and the
cached settings become the returned ones. -/
theorem StatusSetCmd_Execute_accepted_witness :
    (sampleWorld (sampleUser false) []).State.User.Bot = false ∧
    (sampleEnv.toLower "IDLE", Status.StatusIdle) ∈ specStatusTable ∧
    ((StatusSetCmd.Execute sampleEnv (sampleWorld (sampleUser false) []) ["IDLE"]).updateCalls =
        (sampleWorld (sampleUser false) []).updateCalls ++ [Status.StatusIdle] ∧
      ∀ s : Settings, sampleEnv.userUpdateStatus Status.StatusIdle = (some s, none) →
        (StatusSetCmd.Execute sampleEnv (sampleWorld (sampleUser false) [])
          ["IDLE"]).State.Settings = s) :=
  ⟨rfl, by decide,
    StatusSetCmd_Execute_accepted sampleEnv (sampleWorld (sampleUser false) []) "IDLE"
      Status.StatusIdle rfl (by decide)⟩

/-! ## C5: status-set, rejected token lists -/

/-- C5: for a session that is not a bot, when the token list does not have exactly one
token, or has one token whose lower-case form is not in the table of accepted tokens,
`StatusSetCmd.Execute` makes no update call, leaves the session state as it was and
writes a usage error (invalid parameters, respectively the invalid status with the
lower-case token) followed by the help page of status-set. -/
theorem StatusSetCmd_Execute_rejected (env : Env) (w : World) (ts : List String)
    (hbot : w.State.User.Bot = false)
    (hts : ts.length ≠ 1 ∨
      ∃ tok, ts = [tok] ∧ ∀ status, (env.toLower tok, status) ∉ specStatusTable) :
    (StatusSetCmd.Execute env w ts).updateCalls = w.updateCalls ∧
    (StatusSetCmd.Execute env w ts).State = w.State ∧
    (ts.length ≠ 1 →
      (StatusSetCmd.Execute env w ts).written =
        w.written ++ ["[" ++ env.errorColor ++ "]Invalid parameters" ++ "\n",
          statusSetHelpPage ++ "\n"]) ∧
    (∀ tok, ts = [tok] →
      (StatusSetCmd.Execute env w ts).written =
        w.written ++ ["[" ++ env.errorColor ++ "]Invalid status: '" ++ env.toLower tok ++ "'\n",
          statusSetHelpPage ++ "\n"]) := by
  have hb : (w.enter Handler.set ts).State.User.Bot = false := hbot
  rcases hts with hlen | ⟨tok, rfl, htok⟩
  · have hl : ts.length = 0 ∨ ts.length > 1 := by omega
    have hex : StatusSetCmd.Execute env w ts = StatusSetCmd.PrintHelp
        ((w.enter Handler.set ts).write ("[" ++ env.errorColor ++ "]Invalid parameters" ++ "\n")) := by
      simp only [StatusSetCmd.Execute, hb, Bool.false_eq_true, if_false, dif_pos hl]
    rw [hex]
    refine ⟨?_, ?_, ?_, ?_⟩
    · simp [World.write, World.enter, StatusSetCmd.PrintHelp]
    · simp [World.write, World.enter, StatusSetCmd.PrintHelp]
    · intro _
      simp [World.write, World.enter, StatusSetCmd.PrintHelp]
    · intro tok htok
      subst htok
      simp at hlen
  · simp only [specStatusTable, List.mem_cons, Prod.mk.injEq, List.mem_singleton,
      List.not_mem_nil, or_false, not_or, not_and] at htok
    have h1 : env.toLower tok ≠ "online" := fun h => (htok _).1 h rfl
    have h2 : env.toLower tok ≠ "available" := fun h => (htok _).2.1 h rfl
    have h3 : env.toLower tok ≠ "dnd" := fun h => (htok _).2.2.1 h rfl
    have h4 : env.toLower tok ≠ "donotdisturb" := fun h => (htok _).2.2.2.1 h rfl
    have h5 : env.toLower tok ≠ "busy" := fun h => (htok _).2.2.2.2.1 h rfl
    have h6 : env.toLower tok ≠ "idle" := fun h => (htok _).2.2.2.2.2.1 h rfl
    have h7 : env.toLower tok ≠ "invisible" := fun h => (htok _).2.2.2.2.2.2 h rfl
    have hex : StatusSetCmd.Execute env w [tok] = StatusSetCmd.PrintHelp
        ((w.enter Handler.set [tok]).write
          ("[" ++ env.errorColor ++ "]Invalid status: '" ++ env.toLower tok ++ "'\n")) := by
      simp only [StatusSetCmd.Execute, hb]
      simp [h1, h2, h3, h4, h5, h6, h7]
    rw [hex]
    refine ⟨?_, ?_, ?_, ?_⟩
    · simp [World.write, World.enter, StatusSetCmd.PrintHelp]
    · simp [World.write, World.enter, StatusSetCmd.PrintHelp]
    · intro h
      simp at h
    · intro tok2 htok2
      simp only [List.cons.injEq, and_true] at htok2
      subst htok2
      simp [World.write, World.enter, StatusSetCmd.PrintHelp]

/-- A run of C5: the token `offline` is rejected. -/
theorem StatusSetCmd_Execute_rejected_witness :
    (StatusSetCmd.Execute sampleEnv (sampleWorld (sampleUser false) []) ["offline"]).updateCalls
        = [] ∧
    (StatusSetCmd.Execute sampleEnv (sampleWorld (sampleUser false) []) ["offline"]).written =
      ["[#ff0000]Invalid status: 'offline'\n", statusSetHelpPage ++ "\n"] := by
  have h := StatusSetCmd_Execute_rejected sampleEnv (sampleWorld (sampleUser false) [])
    ["offline"] rfl (Or.inr ⟨"offline", rfl, by
      intro status h
      have e : sampleEnv.toLower "offline" = "offline" := by decide
      rw [e] at h
      simp [specStatusTable] at h⟩)
  exact ⟨h.1, h.2.2.2 "offline" rfl⟩

/-! ## C6: bots -/

/-- C6: for a session whose user is a bot and every token list, `StatusSetCmd.Execute`
and `StatusSetCustomCmd.Execute` write the restriction message and nothing else, return
normally, make no update call, send no request, do not read the clock and leave the
session state as it was. -/
theorem Execute_bot_short_circuit (env : Env) (w : World) (ts : List String)
    (hbot : w.State.User.Bot = true) :
    StatusSetCmd.Execute env w ts =
      { w with written := w.written ++ [botMessage],
               invoked := w.invoked ++ [(Handler.set, ts)] } ∧
    StatusSetCustomCmd.Execute env w ts =
      .ok { w with written := w.written ++ [botMessage],
                   invoked := w.invoked ++ [(Handler.setCustom, ts)] } := by
  have hb1 : (w.enter Handler.set ts).State.User.Bot = true := hbot
  have hb2 : (w.enter Handler.setCustom ts).State.User.Bot = true := hbot
  constructor
  · simp only [StatusSetCmd.Execute, hb1]
    simp [World.write, World.enter, botMessage]
  · simp only [StatusSetCustomCmd.Execute, hb2]
    simp [World.write, World.enter, botMessage]

/-- A run of C6: a bot that asks for `-i` as the last token gets the restriction message. -/
theorem Execute_bot_short_circuit_witness :
    (StatusSetCmd.Execute sampleEnv (sampleWorld (sampleUser true) []) ["idle"]).updateCalls
        = [] ∧
    StatusSetCustomCmd.Execute sampleEnv (sampleWorld (sampleUser true) []) ["-i"] =
      .ok { sampleWorld (sampleUser true) [] with
            written := [botMessage], invoked := [(Handler.setCustom, ["-i"])] } := by
  have h := Execute_bot_short_circuit sampleEnv (sampleWorld (sampleUser true) []) ["idle"] rfl
  have h2 := Execute_bot_short_circuit sampleEnv (sampleWorld (sampleUser true) []) ["-i"] rfl
  exact ⟨by rw [h.1]; rfl, h2.2⟩

/-! ## C7: status-get with one key -/

/-- C7: let `M` be the presences, in the order of the presence list, whose user id,
username or display tag equals the key `k`. `StatusGetCmd.Execute` on `[k]` writes the
no-match message with `k` when `M` is empty, the formatted status of the record and
nothing else when `M` has one record, and otherwise the two lines of the ambiguity
message followed by one line with the display tag for every record of `M`, in the order
of `M`. -/
theorem StatusGetCmd_Execute_single_key (env : Env) (w : World) (k : String) :
    (StatusGetCmd.Execute env w [k]).written = w.written ++
      (match w.State.Presences.filter (fun p =>
          decide (p.User.ID = k ∨ p.User.Username = k ∨
            p.User.Username ++ "#" ++ p.User.Discriminator = k)) with
       | [] => ["[" ++ env.errorColor ++ "]No match for '" ++ k ++ "'.\n"]
       | [m] => [statusToString env m.Status ++ "\n"]
       | m₁ :: m₂ :: ms =>
         ["Multiple matches were found for '" ++ k ++ "'. Please be more precise.\n",
          "The following matches were found:" ++ "\n"] ++
         (m₁ :: m₂ :: ms).map
           (fun m => "\t" ++ (m.User.Username ++ "#" ++ m.User.Discriminator) ++ "\n")) := by
  have hf : (fun p : Presence => decide (p.User.ID = k ∨ p.User.Username = k ∨
      p.User.Username ++ "#" ++ p.User.Discriminator = k)) = presenceMatches k := by
    funext p
    rw [Bool.eq_iff_iff]
    simp [presenceMatches, User.String, or_assoc]
  rw [hf]
  simp only [StatusGetCmd.Execute, World.enter, collectMatches_eq, reportMatches_eq,
    List.nil_append, List.getElem_cons_zero]
  generalize w.State.Presences.filter (presenceMatches k) = M
  rcases M with _ | ⟨m₁, _ | ⟨m₂, ms⟩⟩
  · simp
  · simp
  · simp [User.String]

/-! ## C8: the emoji flag -/

/-- C8 (counterexample): on `-i x10s -e :nonexistent:` an emoji flag is followed by a
token that is no emoji, yet the invalid-emoji error is not written: the expiry flag
before it has returned with the invalid-expiry error. On `-i x10s -e 🌞` the emoji flag
is followed by a literal emoji, yet no field is set and nothing is sent. -/
theorem emoji_flag_after_error_counterexample :
    StatusSetCustomCmd.Execute sampleEnv (sampleWorld (sampleUser false) [])
        ["-i", "x10s", "-e", ":nonexistent:"] =
      .ok { sampleWorld (sampleUser false) [] with
            written := ["[#ff0000]Invalid expiry\n"],
            invoked := [(Handler.setCustom, ["-i", "x10s", "-e", ":nonexistent:"])] } ∧
    invalidEmojiMessage sampleEnv = "[#ff0000]Invalid emoji\n" ∧
    StatusSetCustomCmd.Execute sampleEnv (sampleWorld (sampleUser false) [])
        ["-i", "x10s", "-e", "🌞"] =
      .ok { sampleWorld (sampleUser false) [] with
            written := ["[#ff0000]Invalid expiry\n"],
            sent := [],
            invoked := [(Handler.setCustom, ["-i", "x10s", "-e", "🌞"])] } :=
  ⟨rfl, rfl, rfl⟩

/-- C8 (amended): whenever the pass stands at a flag of the `-e`/`--emoji` family that is
followed by a token `t`, whatever the world and the fields gathered so far: if `t` is a
literal emoji the field `emoji_name` becomes `t`; otherwise, if the shorthand table turns
`t` into something else, the field becomes that; in both cases the pass goes on at `t`;
otherwise the invalid-emoji error is written and the pass returns. In a session that is
not a bot, for every list of tokens before the flag, `StatusSetCustomCmd.Execute` either
arrives at the flag and does just that (with the error it returns having sent nothing),
or the case of an earlier flag has returned with its invalid-emoji or invalid-expiry
error. With no flag spelled before the flag it arrives there with no field set. -/
theorem emoji_flag_resolution (env : Env) (w : World) (pre : List String) (flag t : String)
    (rest : List String) (cs : StringMap) (hflag : flag = "-e" ∨ flag = "--emoji") :
    flagLoop env (pre ++ flag :: t :: rest) (flag :: t :: rest) pre.length w cs =
      (if env.containsEmoji t then
        flagLoop env (pre ++ flag :: t :: rest) (t :: rest) (pre.length + 1) w
          (cs.set "emoji_name" t)
      else if env.replace t ≠ t then
        flagLoop env (pre ++ flag :: t :: rest) (t :: rest) (pre.length + 1) w
          (cs.set "emoji_name" (env.replace t))
      else
        .returned (w.write ("[" ++ env.errorColor ++ "]Invalid emoji\n"))) ∧
    (w.State.User.Bot = false → (∀ tok ∈ pre, tok ∉ flagSpellings) →
      StatusSetCustomCmd.Execute env w (pre ++ flag :: t :: rest) =
        (if env.containsEmoji t then
          finishLoop env (flagLoop env (pre ++ flag :: t :: rest) (t :: rest) (pre.length + 1)
            (w.enter Handler.setCustom (pre ++ flag :: t :: rest)) [("emoji_name", t)])
        else if env.replace t ≠ t then
          finishLoop env (flagLoop env (pre ++ flag :: t :: rest) (t :: rest) (pre.length + 1)
            (w.enter Handler.setCustom (pre ++ flag :: t :: rest))
            [("emoji_name", env.replace t)])
        else
          .ok { w with
                written := w.written ++ ["[" ++ env.errorColor ++ "]Invalid emoji\n"],
                invoked := w.invoked ++ [(Handler.setCustom, pre ++ flag :: t :: rest)] })) ∧
    (w.State.User.Bot = false →
      (∃ (w₁ : World) (cs₁ : StringMap), sameButClock (w.enter Handler.setCustom (pre ++ flag :: t :: rest)) w₁ ∧
        StatusSetCustomCmd.Execute env w (pre ++ flag :: t :: rest) =
          (if env.containsEmoji t then
            finishLoop env (flagLoop env (pre ++ flag :: t :: rest) (t :: rest)
              (pre.length + 1) w₁ (cs₁.set "emoji_name" t))
          else if env.replace t ≠ t then
            finishLoop env (flagLoop env (pre ++ flag :: t :: rest) (t :: rest)
              (pre.length + 1) w₁ (cs₁.set "emoji_name" (env.replace t)))
          else
            .ok (w₁.write (invalidEmojiMessage env))) ∧
        (w₁.write (invalidEmojiMessage env)).sent = w.sent ∧
        (w₁.write (invalidEmojiMessage env)).written =
          w.written ++ [invalidEmojiMessage env]) ∨
      (∃ w₁ msg, sameButClock (w.enter Handler.setCustom (pre ++ flag :: t :: rest)) w₁ ∧
        msg ∈ [invalidEmojiMessage env, invalidExpiryMessage env] ∧
        StatusSetCustomCmd.Execute env w (pre ++ flag :: t :: rest) = .ok (w₁.write msg) ∧
        (w₁.write msg).sent = w.sent ∧ (w₁.write msg).written = w.written ++ [msg])) := by
  refine ⟨flagLoop_emoji_step env pre flag t rest w cs hflag, ?_, ?_⟩
  · intro hbot hpre
    rw [StatusSetCustomCmd_Execute_at_flag env w pre _ hbot (by simp) hpre,
      flagLoop_emoji_step env pre flag t rest _ _ hflag]
    by_cases hc : env.containsEmoji t = true
    · simp [hc, StringMap.set]
    · by_cases hr : env.replace t = t
      · simp [hc, hr, finishLoop, World.write, World.enter]
      · simp [hc, hr, StringMap.set]
  · intro hbot
    rcases StatusSetCustomCmd_Execute_prefix_cases env w pre (flag :: t :: rest) hbot
      (by simp) with ⟨w₁, cs₁, hw₁, hex⟩ | ⟨w₁, msg, hw₁, hmsg, hex⟩
    · left
      have hwr := sameButClock_write _ w₁ (invalidEmojiMessage env) hw₁
      refine ⟨w₁, cs₁, hw₁, ?_, hwr.1, hwr.2.1⟩
      rw [hex, flagLoop_emoji_step env pre flag t rest w₁ cs₁ hflag]
      by_cases hc : env.containsEmoji t = true
      · simp [hc]
      · by_cases hr : env.replace t = t
        · simp [hc, hr, finishLoop, invalidEmojiMessage]
        · simp [hc, hr]
    · right
      have hwr := sameButClock_write _ w₁ msg hw₁
      exact ⟨w₁, msg, hw₁, hmsg, hex, hwr.1, hwr.2.1⟩

/-- A run of C8 (amended): `-e :nonexistent:` with the sample emoji table writes the
invalid-emoji error and sends nothing; and on `-s hello -e :sun:`, where a flag comes
before the emoji flag, the pass arrives at the emoji flag with the text set and the
request goes out with both fields. -/
theorem emoji_flag_resolution_witness :
    StatusSetCustomCmd.Execute sampleEnv (sampleWorld (sampleUser false) [])
        ["-e", ":nonexistent:"] =
      .ok { sampleWorld (sampleUser false) [] with
            written := ["[#ff0000]Invalid emoji\n"],
            invoked := [(Handler.setCustom, ["-e", ":nonexistent:"])] } ∧
    flagLoop sampleEnv (["-s", "hello"] ++ "-e" :: ":sun:" :: []) ("-e" :: ":sun:" :: []) 2
        (sampleWorld (sampleUser false) []) [("text", "hello")] =
      flagLoop sampleEnv (["-s", "hello"] ++ "-e" :: ":sun:" :: []) (":sun:" :: []) 3
        (sampleWorld (sampleUser false) []) [("text", "hello"), ("emoji_name", "🌞")] ∧
    (StatusSetCustomCmd.Execute sampleEnv (sampleWorld (sampleUser false) [])
        ["-s", "hello", "-e", ":sun:"]).map (fun w => (w.written, w.sent.map Request.Body)) =
      .ok (["[green]Updated custom status.\n"],
        ["\x7b\"custom_status\":\x7b\"emoji_name\":\"🌞\",\"text\":\"hello\"\x7d\x7d"]) :=
  ⟨(emoji_flag_resolution sampleEnv (sampleWorld (sampleUser false) []) [] "-e"
      ":nonexistent:" [] [] (Or.inl rfl)).2.1 rfl (by simp),
   (emoji_flag_resolution sampleEnv (sampleWorld (sampleUser false) []) ["-s", "hello"] "-e"
      ":sun:" [] [("text", "hello")] (Or.inl rfl)).1,
   rfl⟩

/-! ## C9: the expiry flag, tokens the pattern does not match -/

/-- C9 (counterexample): the token `x10s` is not of the form digits-then-unit, yet
`-i x10s` is not ignored: the invalid-expiry error is written and no request is sent. -/
theorem expiry_flag_not_ignored_counterexample :
    specDurationForm "x10s" = false ∧
    StatusSetCustomCmd.Execute sampleEnv (sampleWorld (sampleUser false) []) ["-i", "x10s"] =
      .ok { sampleWorld (sampleUser false) [] with
            written := ["[#ff0000]Invalid expiry\n"],
            invoked := [(Handler.setCustom, ["-i", "x10s"])] } :=
  ⟨rfl, rfl⟩

/-- C9 (amended): when in the token `v` after a flag of the `-i`/`--expire`/`--expiry`
family no decimal digit is directly followed by one of `s`, `m`, `h`, the flag is
ignored: the pass goes on at the next position with the same world (nothing written, the
clock not read) and the same fields. In a session that is not a bot, with no flag
spelled before that flag, `StatusSetCustomCmd.Execute` goes on with the pass from there
with no field set. -/
theorem expiry_flag_ignored_without_match (env : Env) (w : World) (pre : List String)
    (flag v : String) (rest : List String) (cs : StringMap)
    (hflag : flag = "-i" ∨ flag = "--expire" ∨ flag = "--expiry")
    (hv : ∀ a d u b, v.data = a ++ d :: u :: b → 48 ≤ d.toNat ∧ d.toNat ≤ 57 →
      u ≠ 's' ∧ u ≠ 'm' ∧ u ≠ 'h') :
    flagLoop env (pre ++ flag :: v :: rest) (flag :: v :: rest) pre.length w cs =
      flagLoop env (pre ++ flag :: v :: rest) (v :: rest) (pre.length + 1) w cs ∧
    (w.State.User.Bot = false → (∀ tok ∈ pre, tok ∉ flagSpellings) →
      StatusSetCustomCmd.Execute env w (pre ++ flag :: v :: rest) =
        finishLoop env (flagLoop env (pre ++ flag :: v :: rest) (v :: rest) (pre.length + 1)
          (w.enter Handler.setCustom (pre ++ flag :: v :: rest)) [])) := by
  have hm : regexpMatchString v = false := by
    by_contra hne
    have ht : matchAnywhere v.data = true := by
      simpa [regexpMatchString] using hne
    obtain ⟨a, d, u, b, he, hd, hu⟩ := matchAnywhere_decompose v.data ht
    have hd2 : 48 ≤ d.toNat ∧ d.toNat ≤ 57 := by
      simpa [isDigitChar] using hd
    have := hv a d u b he hd2
    simp only [isUnitChar, Bool.or_eq_true, beq_iff_eq] at hu
    tauto
  have hstep : ∀ w₀ cs₀, flagLoop env (pre ++ flag :: v :: rest) (flag :: v :: rest)
      pre.length w₀ cs₀ =
      flagLoop env (pre ++ flag :: v :: rest) (v :: rest) (pre.length + 1) w₀ cs₀ := by
    intro w₀ cs₀
    rw [flagLoop_expiry_step env pre flag v rest w₀ cs₀ hflag, expiryCase_no_match env w₀ cs₀ v hm]
  refine ⟨hstep w cs, ?_⟩
  intro hbot hpre
  rw [StatusSetCustomCmd_Execute_at_flag env w pre _ hbot (by simp) hpre, hstep]

/-- A run of C9 (amended): `-i 10x` is ignored and the request goes out with no field. -/
theorem expiry_flag_ignored_without_match_witness :
    StatusSetCustomCmd.Execute sampleEnv (sampleWorld (sampleUser false) []) ["-i", "10x"] =
      finishLoop sampleEnv (flagLoop sampleEnv ["-i", "10x"] ["10x"] 1
        ((sampleWorld (sampleUser false) []).enter Handler.setCustom ["-i", "10x"]) []) ∧
    (StatusSetCustomCmd.Execute sampleEnv (sampleWorld (sampleUser false) [])
        ["-i", "10x"]).map (fun w => (w.written, w.sent.map Request.Body)) =
      .ok (["[green]Updated custom status.\n"], ["\x7b\"custom_status\":\x7b\x7d\x7d"]) :=
  ⟨(expiry_flag_ignored_without_match sampleEnv (sampleWorld (sampleUser false) []) []
      "-i" "10x" [] [] (Or.inl rfl) (by
        intro a d u b he hd
        have hl : ("10x" : String).data = ['1', '0', 'x'] := rfl
        rw [hl] at he
        rcases a with _ | ⟨a₁, _ | ⟨a₂, a₃⟩⟩
        · simp only [List.nil_append, List.cons.injEq] at he
          obtain ⟨-, rfl, -⟩ := he
          decide
        · simp only [List.cons_append, List.nil_append, List.cons.injEq] at he
          obtain ⟨-, rfl, rfl, -⟩ := he
          decide
        · simp only [List.cons_append, List.cons.injEq] at he
          have hlen := congrArg List.length he.2.2
          simp only [List.length_cons, List.length_nil, List.length_append] at hlen
          omega)).2 rfl (by simp), rfl⟩

/-! ## C10: the expiry flag, the instant computed -/

/-- C10 (counterexample): with the clock at `T = 1000` the token `10000000000s` does not
give the encoding of `T` plus 10000000000 seconds: the product with `time.Second` wraps
around in 64 bits and `expires_at` is the encoding of an instant before `T`. And the
count 9223372036854775808, which `strconv.Atoi` rejects as out of range, sets no field
at all: the invalid-expiry error is written and nothing is sent. And on
`-e :nonexistent: -i 10s` the emoji flag returns with its error before the pass gets to
the expiry flag: the clock is not read and nothing is set or sent. -/
theorem expiry_duration_wraps_counterexample :
    flagLoop sampleEnv ["-i", "10000000000s"] ["-i", "10000000000s"] 0
        (sampleWorld (sampleUser false) []) [] =
      .completed { sampleWorld (sampleUser false) [] with clockReads := 1 }
        [("expires_at", "-8446744073709550616")] ∧
    sampleEnv.formatRFC3339Nano (sampleEnv.now 0 + 10000000000 * timeSecond) =
      "10000000000000001000" ∧
    StatusSetCustomCmd.Execute sampleEnv (sampleWorld (sampleUser false) [])
        ["-i", "9223372036854775808s"] =
      .ok { sampleWorld (sampleUser false) [] with
            written := ["[#ff0000]Invalid expiry\n"],
            invoked := [(Handler.setCustom, ["-i", "9223372036854775808s"])] } ∧
    StatusSetCustomCmd.Execute sampleEnv (sampleWorld (sampleUser false) [])
        ["-e", ":nonexistent:", "-i", "10s"] =
      .ok { sampleWorld (sampleUser false) [] with
            written := ["[#ff0000]Invalid emoji\n"],
            sent := [],
            clockReads := 0,
            invoked := [(Handler.setCustom, ["-e", ":nonexistent:", "-i", "10s"])] } :=
  ⟨rfl, rfl, rfl, rfl⟩

/-- C10 (amended): let the token after a flag of the `-i`/`--expire`/`--expiry` family be
a run `ds` of one or more decimal digits followed by a unit `u` out of `s`, `m`, `h`, and
let the count times the length of the unit in nanoseconds fit into 64 bits. Then the
clock is read once, giving `T`, and `expires_at` is set to the RFC3339-nanosecond
encoding of exactly `T` plus that many seconds, minutes or hours, and the pass goes on
at the next position. In a session that is not a bot, with no flag spelled before that
flag, `StatusSetCustomCmd.Execute` goes on with the pass from there with that one field;
and for every list of tokens before the flag it either arrives at the flag and does just
that, adding the field to those gathered before, or the case of an earlier flag has
returned with its invalid-emoji or invalid-expiry error and nothing is sent. -/
theorem expiry_flag_sets_expires_at (env : Env) (w : World) (pre : List String)
    (flag : String) (ds : List Char) (u : Char) (unitNs : Int) (rest : List String)
    (cs : StringMap)
    (hflag : flag = "-i" ∨ flag = "--expire" ∨ flag = "--expiry")
    (hds : ds ≠ [])
    (hdig : ∀ c ∈ ds, 48 ≤ c.toNat ∧ c.toNat ≤ 57)
    (hu : (u, unitNs) ∈ specUnits)
    (hfit : (decimalValue ds : Int) * unitNs ≤ 2 ^ 63 - 1) :
    flagLoop env (pre ++ flag :: String.mk (ds ++ [u]) :: rest)
        (flag :: String.mk (ds ++ [u]) :: rest) pre.length w cs =
      flagLoop env (pre ++ flag :: String.mk (ds ++ [u]) :: rest)
        (String.mk (ds ++ [u]) :: rest) (pre.length + 1)
        { w with clockReads := w.clockReads + 1 }
        (cs.set "expires_at" (env.formatRFC3339Nano
          (env.now w.clockReads + (decimalValue ds : Int) * unitNs))) ∧
    (w.State.User.Bot = false → (∀ tok ∈ pre, tok ∉ flagSpellings) →
      StatusSetCustomCmd.Execute env w (pre ++ flag :: String.mk (ds ++ [u]) :: rest) =
        finishLoop env (flagLoop env (pre ++ flag :: String.mk (ds ++ [u]) :: rest)
          (String.mk (ds ++ [u]) :: rest) (pre.length + 1)
          { w with
            clockReads := w.clockReads + 1,
            invoked := w.invoked ++
              [(Handler.setCustom, pre ++ flag :: String.mk (ds ++ [u]) :: rest)] }
          [("expires_at", env.formatRFC3339Nano
            (env.now w.clockReads + (decimalValue ds : Int) * unitNs))])) ∧
    (w.State.User.Bot = false →
      (∃ (w₁ : World) (cs₁ : StringMap),
        sameButClock
          (w.enter Handler.setCustom (pre ++ flag :: String.mk (ds ++ [u]) :: rest)) w₁ ∧
        StatusSetCustomCmd.Execute env w (pre ++ flag :: String.mk (ds ++ [u]) :: rest) =
          finishLoop env (flagLoop env (pre ++ flag :: String.mk (ds ++ [u]) :: rest)
            (String.mk (ds ++ [u]) :: rest) (pre.length + 1)
            { w₁ with clockReads := w₁.clockReads + 1 }
            (cs₁.set "expires_at" (env.formatRFC3339Nano
              (env.now w₁.clockReads + (decimalValue ds : Int) * unitNs))))) ∨
      (∃ w₁ msg,
        sameButClock
          (w.enter Handler.setCustom (pre ++ flag :: String.mk (ds ++ [u]) :: rest)) w₁ ∧
        msg ∈ [invalidEmojiMessage env, invalidExpiryMessage env] ∧
        StatusSetCustomCmd.Execute env w (pre ++ flag :: String.mk (ds ++ [u]) :: rest) =
          .ok (w₁.write msg) ∧
        (w₁.write msg).sent = w.sent ∧ (w₁.write msg).written = w.written ++ [msg])) := by
  have hstep : ∀ w₀ cs₀, flagLoop env (pre ++ flag :: String.mk (ds ++ [u]) :: rest)
      (flag :: String.mk (ds ++ [u]) :: rest) pre.length w₀ cs₀ =
      flagLoop env (pre ++ flag :: String.mk (ds ++ [u]) :: rest)
        (String.mk (ds ++ [u]) :: rest) (pre.length + 1)
        { w₀ with clockReads := w₀.clockReads + 1 }
        (cs₀.set "expires_at" (env.formatRFC3339Nano
          (env.now w₀.clockReads + (decimalValue ds : Int) * unitNs))) := by
    intro w₀ cs₀
    rw [flagLoop_expiry_step env pre flag _ rest w₀ cs₀ hflag,
      expiryCase_digits_unit env w₀ cs₀ ds u unitNs hds hdig hu hfit]
  refine ⟨hstep w cs, ?_, ?_⟩
  · intro hbot hpre
    rw [StatusSetCustomCmd_Execute_at_flag env w pre _ hbot (by simp) hpre, hstep]
    rfl
  · intro hbot
    rcases StatusSetCustomCmd_Execute_prefix_cases env w pre
      (flag :: String.mk (ds ++ [u]) :: rest) hbot (by simp) with
      ⟨w₁, cs₁, hw₁, hex⟩ | ⟨w₁, msg, hw₁, hmsg, hex⟩
    · exact Or.inl ⟨w₁, cs₁, hw₁, by rw [hex, hstep]⟩
    · have hwr := sameButClock_write _ w₁ msg hw₁
      exact Or.inr ⟨w₁, msg, hw₁, hmsg, hex, hwr.1, hwr.2.1⟩

/-- A run of C10 (amended): `-i 10s` with the clock at 1000 sets `expires_at` to the
encoding of 1000 plus ten seconds; and on `-s test -i 1h`, the example of the help page,
where a flag comes before the expiry flag, the pass arrives at the expiry flag with the
text set, adds `expires_at` as the encoding of 1000 plus one hour, and the request goes
out with both fields. -/
theorem expiry_flag_sets_expires_at_witness :
    flagLoop sampleEnv ["-i", "10s"] ["-i", "10s"] 0 (sampleWorld (sampleUser false) []) [] =
      flagLoop sampleEnv ["-i", "10s"] ["10s"] 1
        { sampleWorld (sampleUser false) [] with clockReads := 1 }
        [("expires_at", sampleEnv.formatRFC3339Nano (1000 + 10 * 1000000000))] ∧
    flagLoop sampleEnv (["-s", "test"] ++ "-i" :: String.mk (['1'] ++ ['h']) :: [])
        ("-i" :: String.mk (['1'] ++ ['h']) :: []) 2
        (sampleWorld (sampleUser false) []) [("text", "test")] =
      flagLoop sampleEnv (["-s", "test"] ++ "-i" :: String.mk (['1'] ++ ['h']) :: [])
        (String.mk (['1'] ++ ['h']) :: []) 3
        { sampleWorld (sampleUser false) [] with clockReads := 1 }
        [("text", "test"),
          ("expires_at", sampleEnv.formatRFC3339Nano (1000 + 1 * 3600000000000))] ∧
    StatusSetCustomCmd.Execute sampleEnv (sampleWorld (sampleUser false) [])
        ["-s", "test", "-i", "1h"] =
      .ok { sampleWorld (sampleUser false) [] with
            written := ["[green]Updated custom status.\n"],
            sent := [buildRequest sampleEnv
              [("text", "test"), ("expires_at", "3600000001000")]],
            clockReads := 1,
            invoked := [(Handler.setCustom, ["-s", "test", "-i", "1h"])] } ∧
    (buildRequest sampleEnv [("text", "test"), ("expires_at", "3600000001000")]).Body =
      "\x7b\"custom_status\":\x7b\"expires_at\":\"3600000001000\",\"text\":\"test\"\x7d\x7d" :=
  ⟨(expiry_flag_sets_expires_at sampleEnv (sampleWorld (sampleUser false) []) [] "-i"
      ['1', '0'] 's' 1000000000 [] [] (Or.inl rfl) (by simp) (by decide) (by decide)
      (by decide)).1,
   (expiry_flag_sets_expires_at sampleEnv (sampleWorld (sampleUser false) [])
      ["-s", "test"] "-i" ['1'] 'h' 3600000000000 [] [("text", "test")] (Or.inl rfl)
      (by simp) (by decide) (by decide) (by decide)).1,
   rfl, rfl⟩

/-! ## C11: the expiry flag, tokens the integer parse rejects -/

/-- C11 (counterexample): `-i abcs` writes no invalid-expiry error and does not abort:
the pattern is found nowhere in `abcs`, the flag is ignored and the request goes out with
no field. And on `-e :nonexistent: -i x10s` the error written is the invalid-emoji error
of the emoji flag, which returns before the pass gets to the expiry flag. -/
theorem expiry_flag_abcs_counterexample :
    StatusSetCustomCmd.Execute sampleEnv (sampleWorld (sampleUser false) []) ["-i", "abcs"] =
      .ok { sampleWorld (sampleUser false) [] with
            written := ["[green]Updated custom status.\n"],
            sent := [buildRequest sampleEnv []],
            invoked := [(Handler.setCustom, ["-i", "abcs"])] } ∧
    (buildRequest sampleEnv []).Body = "\x7b\"custom_status\":\x7b\x7d\x7d" ∧
    StatusSetCustomCmd.Execute sampleEnv (sampleWorld (sampleUser false) [])
        ["-e", ":nonexistent:", "-i", "x10s"] =
      .ok { sampleWorld (sampleUser false) [] with
            written := ["[#ff0000]Invalid emoji\n"],
            invoked := [(Handler.setCustom, ["-e", ":nonexistent:", "-i", "x10s"])] } :=
  ⟨rfl, rfl, rfl⟩

/-- C11 (amended): when in the token `v` after a flag of the `-i`/`--expire`/`--expiry`
family some decimal digit is directly followed by one of `s`, `m`, `h`, and
`strconv.Atoi` rejects `v` without its last byte, the pass writes the invalid-expiry
error and returns; in a session that is not a bot, with no flag spelled before that
flag, `StatusSetCustomCmd.Execute` returns with that error written and no request sent.
The token `abcs`, in which no digit comes before the unit, is ignored instead. For every
list of tokens before the flag, `StatusSetCustomCmd.Execute` returns normally, having
sent no request and written exactly one message: the invalid-expiry error, or else the
invalid-emoji or invalid-expiry error with which the case of an earlier flag has
returned. -/
theorem expiry_flag_parse_error (env : Env) (w : World) (pre : List String)
    (flag v : String) (rest : List String) (cs : StringMap)
    (hflag : flag = "-i" ∨ flag = "--expire" ∨ flag = "--expiry")
    (hv : ∃ a d u b, v.data = a ++ d :: u :: b ∧ (48 ≤ d.toNat ∧ d.toNat ≤ 57) ∧
      (u = 's' ∨ u = 'm' ∨ u = 'h'))
    (hparse : Atoi ((goBytes v).take ((goBytes v).length - 1)) = none) :
    flagLoop env (pre ++ flag :: v :: rest) (flag :: v :: rest) pre.length w cs =
      .returned (w.write ("[" ++ env.errorColor ++ "]Invalid expiry\n")) ∧
    (w.State.User.Bot = false → (∀ tok ∈ pre, tok ∉ flagSpellings) →
      StatusSetCustomCmd.Execute env w (pre ++ flag :: v :: rest) =
        .ok { w with
              written := w.written ++ ["[" ++ env.errorColor ++ "]Invalid expiry\n"],
              invoked := w.invoked ++ [(Handler.setCustom, pre ++ flag :: v :: rest)] }) ∧
    expiryCase env w cs "abcs" = (w, some cs) ∧
    (w.State.User.Bot = false →
      ∃ w₁ msg, StatusSetCustomCmd.Execute env w (pre ++ flag :: v :: rest) = .ok w₁ ∧
        w₁.sent = w.sent ∧ w₁.written = w.written ++ [msg] ∧ w₁.State = w.State ∧
        w₁.updateCalls = w.updateCalls ∧
        msg ∈ [invalidExpiryMessage env, invalidEmojiMessage env]) := by
  have hm : regexpMatchString v = true := by
    obtain ⟨a, d, u, b, he, hd, hu⟩ := hv
    have hd2 : isDigitChar d = true := by
      simpa [isDigitChar] using hd
    have hu2 : isUnitChar u = true := by
      simp only [isUnitChar, Bool.or_eq_true, beq_iff_eq]
      tauto
    simp only [regexpMatchString, he]
    exact matchAnywhere_of_decompose a d u b hd2 hu2
  have hcase : ∀ w₀ cs₀, expiryCase env w₀ cs₀ v =
      (w₀.write ("[" ++ env.errorColor ++ "]Invalid expiry\n"), none) := by
    intro w₀ cs₀
    simp [expiryCase, hm, hparse]
  have hstep : ∀ w₀ cs₀, flagLoop env (pre ++ flag :: v :: rest) (flag :: v :: rest)
      pre.length w₀ cs₀ = .returned (w₀.write ("[" ++ env.errorColor ++ "]Invalid expiry\n")) := by
    intro w₀ cs₀
    rw [flagLoop_expiry_step env pre flag v rest w₀ cs₀ hflag, hcase]
  refine ⟨hstep w cs, ?_, expiryCase_no_match env w cs "abcs" rfl, ?_⟩
  · intro hbot hpre
    rw [StatusSetCustomCmd_Execute_at_flag env w pre _ hbot (by simp) hpre, hstep]
    rfl
  · intro hbot
    rcases StatusSetCustomCmd_Execute_prefix_cases env w pre (flag :: v :: rest) hbot
      (by simp) with ⟨w₁, cs₁, hw₁, hex⟩ | ⟨w₁, msg, hw₁, hmsg, hex⟩
    · have hwr := sameButClock_write _ w₁ (invalidExpiryMessage env) hw₁
      refine ⟨w₁.write (invalidExpiryMessage env), invalidExpiryMessage env, ?_, hwr.1,
        hwr.2.1, hwr.2.2.1, hwr.2.2.2, by simp⟩
      rw [hex, hstep]
      rfl
    · have hwr := sameButClock_write _ w₁ msg hw₁
      refine ⟨w₁.write msg, msg, hex, hwr.1, hwr.2.1, hwr.2.2.1, hwr.2.2.2, ?_⟩
      simp only [List.mem_cons, List.mem_singleton, List.not_mem_nil, or_false] at hmsg ⊢
      tauto

/-- A run of C11 (amended): `-i x10s` writes the invalid-expiry error and sends nothing;
and on `-s hello -i x10s`, where a flag comes before the expiry flag, one message is
written and nothing is sent, the message being the invalid-expiry error. -/
theorem expiry_flag_parse_error_witness :
    StatusSetCustomCmd.Execute sampleEnv (sampleWorld (sampleUser false) []) ["-i", "x10s"] =
      .ok { sampleWorld (sampleUser false) [] with
            written := [] ++ ["[" ++ sampleEnv.errorColor ++ "]Invalid expiry\n"],
            invoked := [] ++ [(Handler.setCustom, ["-i", "x10s"])] } ∧
    (∃ w₁ msg, StatusSetCustomCmd.Execute sampleEnv (sampleWorld (sampleUser false) [])
        (["-s", "hello"] ++ "-i" :: "x10s" :: []) = .ok w₁ ∧
      w₁.sent = (sampleWorld (sampleUser false) []).sent ∧
      w₁.written = (sampleWorld (sampleUser false) []).written ++ [msg] ∧
      w₁.State = (sampleWorld (sampleUser false) []).State ∧
      w₁.updateCalls = (sampleWorld (sampleUser false) []).updateCalls ∧
      msg ∈ [invalidExpiryMessage sampleEnv, invalidEmojiMessage sampleEnv]) ∧
    StatusSetCustomCmd.Execute sampleEnv (sampleWorld (sampleUser false) [])
        ["-s", "hello", "-i", "x10s"] =
      .ok { sampleWorld (sampleUser false) [] with
            written := ["[#ff0000]Invalid expiry\n"],
            invoked := [(Handler.setCustom, ["-s", "hello", "-i", "x10s"])] } :=
  ⟨(expiry_flag_parse_error sampleEnv (sampleWorld (sampleUser false) []) [] "-i" "x10s" []
      [] (Or.inl rfl) ⟨['x', '1'], '0', 's', [], rfl, by decide, Or.inl rfl⟩ rfl).2.1 rfl
      (by simp),
   (expiry_flag_parse_error sampleEnv (sampleWorld (sampleUser false) []) ["-s", "hello"]
      "-i" "x10s" [] [] (Or.inl rfl) ⟨['x', '1'], '0', 's', [], rfl, by decide, Or.inl rfl⟩
      rfl).2.2.2 rfl,
   rfl⟩

/-! ## C12: a status flag as the last token -/

/-- C12 (counterexample): on `-e :nonexistent: -s` the status flag is the last token, yet
what is written is the invalid-emoji error of the emoji flag before it, not the
missing-status error; no request is sent. -/
theorem status_flag_last_after_error_counterexample :
    StatusSetCustomCmd.Execute sampleEnv (sampleWorld (sampleUser false) [])
        ["-e", ":nonexistent:", "-s"] =
      .ok { sampleWorld (sampleUser false) [] with
            written := ["[#ff0000]Invalid emoji\n"],
            invoked := [(Handler.setCustom, ["-e", ":nonexistent:", "-s"])] } ∧
    missingStatusMessage sampleEnv = "[#ff0000]Error, you didn't supply a status\n" :=
  ⟨rfl, rfl⟩

/-- C12 (amended): let `-s` or `--status` be the last token. Whenever the pass arrives at
it, whatever the fields gathered so far, it writes the missing-status error and returns.
In a session that is not a bot `StatusSetCustomCmd.Execute` then returns normally for
every list of tokens before the flag, having sent no request and written exactly one
message: the missing-status error, or else the invalid-emoji or invalid-expiry error
with which the case of an earlier flag has returned; with no flag spelled before it is
the missing-status error. -/
theorem status_flag_last_token (env : Env) (w : World) (pre : List String) (flag : String)
    (hflag : flag = "-s" ∨ flag = "--status") :
    (∀ w₀ cs₀, flagLoop env (pre ++ [flag]) [flag] pre.length w₀ cs₀ =
      .returned (w₀.write (missingStatusMessage env))) ∧
    (w.State.User.Bot = false →
      ∃ w₁ msg, StatusSetCustomCmd.Execute env w (pre ++ [flag]) = .ok w₁ ∧
        w₁.sent = w.sent ∧ w₁.written = w.written ++ [msg] ∧ w₁.State = w.State ∧
        w₁.updateCalls = w.updateCalls ∧
        msg ∈ [missingStatusMessage env, invalidEmojiMessage env,
          invalidExpiryMessage env]) ∧
    (w.State.User.Bot = false → (∀ tok ∈ pre, tok ∉ flagSpellings) →
      StatusSetCustomCmd.Execute env w (pre ++ [flag]) =
        .ok { w with
              written := w.written ++ [missingStatusMessage env],
              invoked := w.invoked ++ [(Handler.setCustom, pre ++ [flag])] }) := by
  refine ⟨fun w₀ cs₀ => flagLoop_status_last env pre flag w₀ cs₀ hflag, ?_, ?_⟩
  · intro hbot
    rw [StatusSetCustomCmd_Execute_nonbot env w _ hbot (by simp)]
    have h := flagLoop_prefix_cases env (pre ++ [flag]) [] pre [flag]
      (w.enter Handler.setCustom (pre ++ [flag])) [] (by simp) (by simp)
    simp only [List.length_nil, Nat.zero_add] at h
    rcases h with ⟨w₁, cs₁, hw₁, hrun⟩ | ⟨w₁, msg, hw₁, hmsg, hrun⟩
    · rw [hrun, flagLoop_status_last env pre flag w₁ cs₁ hflag]
      refine ⟨w₁.write (missingStatusMessage env), missingStatusMessage env, rfl, ?_⟩
      unfold sameButClock at hw₁
      rw [hw₁]
      simp [World.write, World.enter]
    · rw [hrun]
      refine ⟨w₁.write msg, msg, rfl, ?_⟩
      unfold sameButClock at hw₁
      rw [hw₁]
      simp only [List.mem_cons, List.mem_singleton, List.not_mem_nil, or_false] at hmsg
      simp [World.write, World.enter]
      tauto
  · intro hbot hpre
    rw [StatusSetCustomCmd_Execute_at_flag env w pre _ hbot (by simp) hpre,
      flagLoop_status_last env pre flag _ _ hflag]
    rfl

/-- A run of C12 (amended): `-e 🌞 -s` has set the emoji when the pass arrives at the
status flag; the missing-status error is written and nothing is sent. -/
theorem status_flag_last_token_witness :
    flagLoop sampleEnv (["-e", "🌞"] ++ ["-s"]) ["-s"] 2 (sampleWorld (sampleUser false) [])
        [("emoji_name", "🌞")] =
      .returned ((sampleWorld (sampleUser false) []).write
        (missingStatusMessage sampleEnv)) ∧
    StatusSetCustomCmd.Execute sampleEnv (sampleWorld (sampleUser false) [])
        (["hello"] ++ ["-s"]) =
      .ok { sampleWorld (sampleUser false) [] with
            written := [] ++ [missingStatusMessage sampleEnv],
            invoked := [] ++ [(Handler.setCustom, ["hello"] ++ ["-s"])] } :=
  ⟨(status_flag_last_token sampleEnv (sampleWorld (sampleUser false) []) ["-e", "🌞"] "-s"
      (Or.inl rfl)).1 (sampleWorld (sampleUser false) []) [("emoji_name", "🌞")],
   (status_flag_last_token sampleEnv (sampleWorld (sampleUser false) []) ["hello"] "-s"
      (Or.inl rfl)).2.2 rfl (by decide)⟩

/-! ## C13: reporting the outcome of the request -/

/-- C13 (counterexample): the server answers 403 and reading the body fails; after the
line with the status code comes the read-error message, not a body text. -/
theorem bad_status_unreadable_body_counterexample :
    StatusSetCustomCmd.Execute (sampleEnvForbidden none) (sampleWorld (sampleUser false) [])
        ["-s", "hello"] =
      .ok { sampleWorld (sampleUser false) [] with
            written := ["[#ff0000]Bad status return; 403 != 200\n",
              "[#ff0000]Error reading response body\n"],
            sent := [buildRequest (sampleEnvForbidden none) [("text", "hello")]],
            invoked := [(Handler.setCustom, ["-s", "hello"])] } :=
  rfl

/-- C13 (amended): in a session that is not a bot, when the pass over a non-empty token
list runs to its end, `StatusSetCustomCmd.Execute` sends one request and then writes:
the send-error message and nothing else when the transport returns an error; the success
confirmation and nothing else when the status code of the response is 200; and for every
other status code the failure line with the decimal value of the code, followed by the
raw body text when the body can be read and by the read-error message when it cannot.
The success confirmation alone is what is written exactly when the code is 200. -/
theorem sendCustomStatus_reports (env : Env) (w : World) (ps : List String) (w₁ : World)
    (cs : StringMap)
    (hbot : w.State.User.Bot = false) (hps : ps ≠ [])
    (hrun : flagLoop env ps ps 0 (w.enter Handler.setCustom ps) [] = .completed w₁ cs) :
    (∃ w₂, StatusSetCustomCmd.Execute env w ps = .ok w₂ ∧
      w₂.sent = w.sent ++ [buildRequest env cs] ∧
      (env.clientDo (buildRequest env cs) = none →
        w₂.written = w.written ++
          ["[" ++ env.errorColor ++ "]Error sending status update request.\n"]) ∧
      (∀ resp, env.clientDo (buildRequest env cs) = some resp →
        (resp.StatusCode = 200 →
          w₂.written = w.written ++ ["[green]Updated custom status.\n"]) ∧
        (resp.StatusCode ≠ 200 → ∀ body, resp.Body = some body →
          w₂.written = w.written ++
            ["[" ++ env.errorColor ++ "]Bad status return; " ++ toString resp.StatusCode ++
              " != 200\n", "[" ++ env.errorColor ++ "]" ++ body]) ∧
        (resp.StatusCode ≠ 200 → resp.Body = none →
          w₂.written = w.written ++
            ["[" ++ env.errorColor ++ "]Bad status return; " ++ toString resp.StatusCode ++
              " != 200\n", "[" ++ env.errorColor ++ "]Error reading response body\n"]) ∧
        (w₂.written = w.written ++ ["[green]Updated custom status.\n"] ↔
          resp.StatusCode = 200))) := by
  obtain ⟨hsame, -⟩ := flagLoop_completed env ps ps 0 _ [] w₁ cs hrun
  have hwr : w₁.written = w.written := by
    unfold sameButClock at hsame
    rw [hsame]
    rfl
  have hsent : w₁.sent = w.sent := by
    unfold sameButClock at hsame
    rw [hsame]
    rfl
  refine ⟨sendCustomStatus env w₁ cs, ?_, ?_, ?_, ?_⟩
  · rw [StatusSetCustomCmd_Execute_nonbot env w ps hbot hps, hrun]
    rfl
  · unfold sendCustomStatus
    simp only []
    split
    · simp [World.write, hsent]
    · split_ifs <;> (try split) <;> simp [World.write, hsent]
  · intro hnone
    simp [sendCustomStatus, hnone, World.write, hwr]
  · intro resp hresp
    refine ⟨?_, ?_, ?_, ?_⟩
    · intro h200
      simp [sendCustomStatus, hresp, h200, World.write, hwr]
    · intro hne body hbody
      simp [sendCustomStatus, hresp, hne, hbody, World.write, hwr]
    · intro hne hbody
      simp [sendCustomStatus, hresp, hne, hbody, World.write, hwr]
    · constructor
      · intro hw
        by_contra hne
        cases hb : resp.Body with
        | none =>
          simp [sendCustomStatus, hresp, hne, hb, World.write, hwr] at hw
        | some body =>
          simp [sendCustomStatus, hresp, hne, hb, World.write, hwr] at hw
      · intro h200
        simp [sendCustomStatus, hresp, h200, World.write, hwr]

/-- A run of C13 (amended): the server answers 403 with the body `Forbidden`; the failure
line with 403 and then the body text are written. -/
theorem sendCustomStatus_reports_witness :
    ∃ w₂, StatusSetCustomCmd.Execute (sampleEnvForbidden (some "Forbidden"))
        (sampleWorld (sampleUser false) []) ["-s", "hello"] = .ok w₂ ∧
      w₂.written = ["[#ff0000]Bad status return; 403 != 200\n", "[#ff0000]Forbidden"] := by
  obtain ⟨w₂, hex, -, -, hresp⟩ := sendCustomStatus_reports
    (sampleEnvForbidden (some "Forbidden")) (sampleWorld (sampleUser false) [])
    ["-s", "hello"] ((sampleWorld (sampleUser false) []).enter Handler.setCustom
      ["-s", "hello"]) [("text", "hello")] rfl (by simp) rfl
  exact ⟨w₂, hex, (hresp { StatusCode := 403, Body := some "Forbidden" } rfl).2.1
    (by decide) "Forbidden" rfl⟩

/-! ## C14: the request body and its fields -/

/-- C14: in a session that is not a bot, when the pass over a non-empty token list runs
to its end with the fields `cs`, `StatusSetCustomCmd.Execute` sends one request, and its
body is the JSON object with the single key `custom_status` over the object that
`json.Marshal` writes for `cs`. The keys of `cs` are among `text`, `emoji_name` and
`expires_at`, each at most once. Reading the body back gives the members of `cs` with
their values, none added and none lost, in the sorted order of the keys. With no field
set the body is the object with an empty object under `custom_status`. -/
theorem request_body_round_trip (env : Env) (w : World) (ps : List String) (w₁ : World)
    (cs : StringMap)
    (hbot : w.State.User.Bot = false) (hps : ps ≠ [])
    (hrun : flagLoop env ps ps 0 (w.enter Handler.setCustom ps) [] = .completed w₁ cs) :
    (∃ w₂, StatusSetCustomCmd.Execute env w ps = .ok w₂ ∧
      w₂.sent = w.sent ++ [buildRequest env cs]) ∧
    (buildRequest env cs).Body =
      "\x7b" ++ jsonString "custom_status" ++ ":" ++ jsonMarshalMap cs ++ "\x7d" ∧
    (∀ k ∈ cs.map Prod.fst, k ∈ specFieldNames) ∧
    (cs.map Prod.fst).Nodup ∧
    decodeRequestBody (buildRequest env cs).Body = some (sortByKey cs) ∧
    (sortByKey cs).Perm cs ∧
    (cs = [] → (buildRequest env cs).Body = "\x7b\"custom_status\":\x7b\x7d\x7d") := by
  obtain ⟨hsame, hkeys⟩ := flagLoop_completed env ps ps 0 _ [] w₁ cs hrun
  have hsent : w₁.sent = w.sent := by
    unfold sameButClock at hsame
    rw [hsame]
    rfl
  refine ⟨⟨sendCustomStatus env w₁ cs, ?_, ?_⟩, rfl, ?_, ?_, ?_, sortByKey_perm cs, ?_⟩
  · rw [StatusSetCustomCmd_Execute_nonbot env w ps hbot hps, hrun]
    rfl
  · unfold sendCustomStatus
    simp only []
    split
    · simp [World.write, hsent]
    · split_ifs <;> (try split) <;> simp [World.write, hsent]
  · intro k hk
    rcases hkeys k hk with h | h
    · exact h
    · simp at h
  · exact flagLoop_completed_nodup env ps ps 0 _ [] w₁ cs (by simp) hrun
  · exact decodeRequestBody_jsonMarshalRequest cs
  · intro hnil
    subst hnil
    rfl

/-- A run of C14: `-s hello -i 10s` sends the body with the two fields `expires_at` and
`text`, and reading it back gives these two fields. -/
theorem request_body_round_trip_witness :
    (buildRequest sampleEnv [("text", "hello"), ("expires_at", "10000001000")]).Body =
      "\x7b\"custom_status\":\x7b\"expires_at\":\"10000001000\",\"text\":\"hello\"\x7d\x7d" ∧
    decodeRequestBody
        (buildRequest sampleEnv [("text", "hello"), ("expires_at", "10000001000")]).Body =
      some (sortByKey [("text", "hello"), ("expires_at", "10000001000")]) :=
  ⟨rfl, (request_body_round_trip sampleEnv (sampleWorld (sampleUser false) [])
    ["-s", "hello", "-i", "10s"]
    { (sampleWorld (sampleUser false) []).enter Handler.setCustom
        ["-s", "hello", "-i", "10s"] with clockReads := 1 }
    [("text", "hello"), ("expires_at", "10000001000")] rfl (by simp) rfl).2.2.2.2.1⟩

/-! ## C15: the request of the example in the help page -/

/-- C15 (counterexample): on `-s "shining bright" -e :sun:` the body that is sent has the
key `emoji_name` before the key `text`; it is not the body with `text` first. -/
theorem request_body_key_order_counterexample :
    (StatusSetCustomCmd.Execute sampleEnv (sampleWorld (sampleUser false) [])
        ["-s", "shining bright", "-e", ":sun:"]).map (fun w => w.sent.map Request.Body) =
      .ok ["\x7b\"custom_status\":\x7b\"emoji_name\":\"🌞\",\"text\":\"shining bright\"\x7d\x7d"] ∧
    "\x7b\"custom_status\":\x7b\"emoji_name\":\"🌞\",\"text\":\"shining bright\"\x7d\x7d" ≠
      "\x7b\"custom_status\":\x7b\"text\":\"shining bright\",\"emoji_name\":\"🌞\"\x7d\x7d" :=
  ⟨rfl, by decide⟩

/-- C15 (amended): in a session that is not a bot, with an emoji table in which `:sun:`
is no literal emoji and stands for the sun, `StatusSetCustomCmd.Execute` on
`-s "shining bright" -e :sun:` sends exactly one request, and its body is the object
under `custom_status` with the two fields `emoji_name` and `text`, the keys in the
sorted order in which `json.Marshal` writes a map. -/
theorem request_body_of_example (env : Env) (w : World)
    (hbot : w.State.User.Bot = false)
    (hliteral : env.containsEmoji ":sun:" = false)
    (hsun : env.replace ":sun:" = "🌞") :
    ∃ w₁, StatusSetCustomCmd.Execute env w ["-s", "shining bright", "-e", ":sun:"] = .ok w₁ ∧
      w₁.sent.map Request.Body = w.sent.map Request.Body ++
        ["\x7b\"custom_status\":\x7b\"emoji_name\":\"🌞\",\"text\":\"shining bright\"\x7d\x7d"] := by
  have hne : env.replace ":sun:" ≠ ":sun:" := by
    rw [hsun]
    decide
  have s1 := flagLoop_status_step env [] "-s" "shining bright" ["-e", ":sun:"]
    (w.enter Handler.setCustom ["-s", "shining bright", "-e", ":sun:"]) [] (Or.inl rfl)
  have s2 := flagLoop_skip_one env ["-s"] "shining bright" ["-e", ":sun:"]
    (w.enter Handler.setCustom ["-s", "shining bright", "-e", ":sun:"])
    (StringMap.set [] "text" "shining bright") (by decide)
  have s3 := flagLoop_emoji_step env ["-s", "shining bright"] "-e" ":sun:" []
    (w.enter Handler.setCustom ["-s", "shining bright", "-e", ":sun:"])
    (StringMap.set [] "text" "shining bright") (Or.inl rfl)
  have s4 := flagLoop_skip_one env ["-s", "shining bright", "-e"] ":sun:" []
    (w.enter Handler.setCustom ["-s", "shining bright", "-e", ":sun:"])
    (StringMap.set (StringMap.set [] "text" "shining bright") "emoji_name" "🌞") (by decide)
  simp only [List.nil_append, List.length_nil, List.cons_append, List.length_cons,
    Nat.zero_add, hliteral, hne, hsun, ne_eq, not_false_eq_true, if_true, if_false,
    Bool.false_eq_true] at s1 s2 s3 s4
  have hrun : flagLoop env ["-s", "shining bright", "-e", ":sun:"]
      ["-s", "shining bright", "-e", ":sun:"] 0
      (w.enter Handler.setCustom ["-s", "shining bright", "-e", ":sun:"]) [] =
      .completed (w.enter Handler.setCustom ["-s", "shining bright", "-e", ":sun:"])
        [("text", "shining bright"), ("emoji_name", "🌞")] := by
    rw [s1, s2, s3, s4]
    simp [flagLoop, StringMap.set]
  refine ⟨sendCustomStatus env
    (w.enter Handler.setCustom ["-s", "shining bright", "-e", ":sun:"])
    [("text", "shining bright"), ("emoji_name", "🌞")], ?_, ?_⟩
  · rw [StatusSetCustomCmd_Execute_nonbot env w _ hbot (by simp), hrun]
    rfl
  · have hbody : (buildRequest env [("text", "shining bright"), ("emoji_name", "🌞")]).Body =
        "\x7b\"custom_status\":\x7b\"emoji_name\":\"🌞\",\"text\":\"shining bright\"\x7d\x7d" := rfl
    unfold sendCustomStatus
    simp only []
    split
    · simp [World.write, World.enter, hbody]
    · split_ifs <;> (try split) <;> simp [World.write, World.enter, hbody]

/-- A run of C15 (amended): with the sample emoji table the example sends the body with
`emoji_name` first. -/
theorem request_body_of_example_witness :
    ∃ w₁, StatusSetCustomCmd.Execute sampleEnv (sampleWorld (sampleUser false) [])
        ["-s", "shining bright", "-e", ":sun:"] = .ok w₁ ∧
      w₁.sent.map Request.Body = (sampleWorld (sampleUser false) []).sent.map Request.Body ++
        ["\x7b\"custom_status\":\x7b\"emoji_name\":\"🌞\",\"text\":\"shining bright\"\x7d\x7d"] :=
  request_body_of_example sampleEnv (sampleWorld (sampleUser false) []) rfl rfl rfl

/-! ## C16: status-get without arguments -/

/-- C16: `StatusGetCmd.Execute` with zero tokens writes the formatted label of the cached
status followed by a newline and nothing else; so for two sessions with the same cached
status, whatever their presence lists and whatever else differs in them, the text
written is the same. -/
theorem StatusGetCmd_Execute_no_arguments (env : Env) (w₁ w₂ : World)
    (hstatus : w₁.State.Settings.Status = w₂.State.Settings.Status) :
    (StatusGetCmd.Execute env w₁ []).written =
      w₁.written ++ [statusToString env w₁.State.Settings.Status ++ "\n"] ∧
    (StatusGetCmd.Execute env w₂ []).written =
      w₂.written ++ [statusToString env w₁.State.Settings.Status ++ "\n"] := by
  constructor
  · simp [StatusGetCmd.Execute, World.write, World.enter]
  · rw [hstatus]
    simp [StatusGetCmd.Execute, World.write, World.enter]

/-- A run of C16: a session without presences and a session with one presence, both
cached as online, get the same line. -/
theorem StatusGetCmd_Execute_no_arguments_witness :
    (StatusGetCmd.Execute sampleEnv (sampleWorld (sampleUser false) []) []).written =
      ["[green]Online[white]\n"] ∧
    (StatusGetCmd.Execute sampleEnv
      (sampleWorld (sampleUser true) [{ User := sampleUser false, Status := .StatusIdle }])
      []).written = ["[green]Online[white]\n"] :=
  StatusGetCmd_Execute_no_arguments sampleEnv (sampleWorld (sampleUser false) [])
    (sampleWorld (sampleUser true) [{ User := sampleUser false, Status := .StatusIdle }]) rfl

/-! ## C17: the router and status-set-custom -/

/-- C17 (the code at every input): whatever the token list, `StatusCmd.Execute` records
exactly one handler call and that call is to status-get or to status-set, never to
status-set-custom; on `set-custom -s hello` the whole list goes to status-get, which
rejects it as invalid parameters. -/
theorem StatusCmd_Execute_never_set_custom :
    (∀ (env : Env) (w : World) (ts : List String), ∃ h args,
      (StatusCmd.Execute env w ts).invoked = w.invoked ++ [(h, args)] ∧
      h ≠ Handler.setCustom) ∧
    StatusCmd.Execute sampleEnv (sampleWorld (sampleUser false) [])
        ["set-custom", "-s", "hello"] =
      { sampleWorld (sampleUser false) [] with
        written := ["[#ff0000]Invalid parameters\n", statusGetHelpPage ++ "\n"],
        invoked := [(Handler.get, ["set-custom", "-s", "hello"])] } := by
  refine ⟨?_, rfl⟩
  intro env w ts
  cases ts with
  | nil => exact ⟨Handler.get, [], by simp [StatusCmd.Execute, StatusGetCmd_Execute_invoked],
      by decide⟩
  | cons t rest =>
    by_cases h1 : t = "set" ∨ t = "update"
    · exact ⟨Handler.set, rest,
        by simp [StatusCmd.Execute, h1, StatusSetCmd_Execute_invoked], by decide⟩
    · by_cases h2 : t = "get"
      · exact ⟨Handler.get, rest,
          by simp [StatusCmd.Execute, h2, StatusGetCmd_Execute_invoked], by decide⟩
      · exact ⟨Handler.get, t :: rest,
          by simp [StatusCmd.Execute, h1, h2, StatusGetCmd_Execute_invoked], by decide⟩

/-! ## C18: an emoji flag as the last token -/

/-- C18 (counterexample): on `-e :nonexistent: -e` the emoji flag is the last token, yet
no request is built or sent: the case of the emoji flag before it has returned with the
invalid-emoji error. -/
theorem emoji_flag_last_after_error_counterexample :
    StatusSetCustomCmd.Execute sampleEnv (sampleWorld (sampleUser false) [])
        ["-e", ":nonexistent:", "-e"] =
      .ok { sampleWorld (sampleUser false) [] with
            written := ["[#ff0000]Invalid emoji\n"],
            sent := [],
            invoked := [(Handler.setCustom, ["-e", ":nonexistent:", "-e"])] } :=
  rfl

/-- C18 (amended): let `-e` or `--emoji` be the last token. Whenever the pass arrives at
it, the flag is skipped: nothing is written, no field is set, and the pass is complete
with the world and the fields as they were. In a session that is not a bot
`StatusSetCustomCmd.Execute` then returns normally for every list of tokens before the
flag: either it goes on to build and send the request, or the case of an earlier flag
has returned with its invalid-emoji or invalid-expiry error and nothing is sent; with no
flag spelled before, the request is sent with no field. -/
theorem emoji_flag_last_token (env : Env) (w : World) (pre : List String) (flag : String)
    (hflag : flag = "-e" ∨ flag = "--emoji") :
    (∀ w₀ cs₀, flagLoop env (pre ++ [flag]) [flag] pre.length w₀ cs₀ = .completed w₀ cs₀) ∧
    (w.State.User.Bot = false →
      (∃ w₁ cs₁, sameButClock (w.enter Handler.setCustom (pre ++ [flag])) w₁ ∧
        StatusSetCustomCmd.Execute env w (pre ++ [flag]) =
          .ok (sendCustomStatus env w₁ cs₁)) ∨
      (∃ w₁ msg, sameButClock (w.enter Handler.setCustom (pre ++ [flag])) w₁ ∧
        msg ∈ [invalidEmojiMessage env, invalidExpiryMessage env] ∧
        StatusSetCustomCmd.Execute env w (pre ++ [flag]) = .ok (w₁.write msg))) ∧
    (w.State.User.Bot = false → (∀ tok ∈ pre, tok ∉ flagSpellings) →
      StatusSetCustomCmd.Execute env w (pre ++ [flag]) =
        .ok (sendCustomStatus env (w.enter Handler.setCustom (pre ++ [flag])) [])) := by
  refine ⟨fun w₀ cs₀ => flagLoop_emoji_last env pre flag w₀ cs₀ hflag, ?_, ?_⟩
  · intro hbot
    rw [StatusSetCustomCmd_Execute_nonbot env w _ hbot (by simp)]
    have h := flagLoop_prefix_cases env (pre ++ [flag]) [] pre [flag]
      (w.enter Handler.setCustom (pre ++ [flag])) [] (by simp) (by simp)
    simp only [List.length_nil, Nat.zero_add] at h
    rcases h with ⟨w₁, cs₁, hw₁, hrun⟩ | ⟨w₁, msg, hw₁, hmsg, hrun⟩
    · left
      rw [hrun, flagLoop_emoji_last env pre flag w₁ cs₁ hflag]
      exact ⟨w₁, cs₁, hw₁, rfl⟩
    · right
      rw [hrun]
      exact ⟨w₁, msg, hw₁, hmsg, rfl⟩
  · intro hbot hpre
    rw [StatusSetCustomCmd_Execute_at_flag env w pre _ hbot (by simp) hpre,
      flagLoop_emoji_last env pre flag _ _ hflag]
    rfl

/-- A run of C18 (amended): `-s hello -e` sends the request with the text alone. -/
theorem emoji_flag_last_token_witness :
    flagLoop sampleEnv (["-s", "hello"] ++ ["-e"]) ["-e"] 2
        (sampleWorld (sampleUser false) []) [("text", "hello")] =
      .completed (sampleWorld (sampleUser false) []) [("text", "hello")] ∧
    (StatusSetCustomCmd.Execute sampleEnv (sampleWorld (sampleUser false) [])
        ["-s", "hello", "-e"]).map (fun w => (w.written, w.sent.map Request.Body)) =
      .ok (["[green]Updated custom status.\n"],
        ["\x7b\"custom_status\":\x7b\"text\":\"hello\"\x7d\x7d"]) :=
  ⟨(emoji_flag_last_token sampleEnv (sampleWorld (sampleUser false) []) ["-s", "hello"] "-e"
      (Or.inl rfl)).1 (sampleWorld (sampleUser false) []) [("text", "hello")], rfl⟩

/-! ## C19: the invalid-time-character branch -/

/-- C19: when a token `t` passes the format check (the pattern is found somewhere in it)
and `strconv.Atoi` accepts `t` without its last byte, then the last character of `t` is
one of `s`, `m`, `h` and the byte the unit dispatch looks at is that character. So the
expiry case always ends in one of three ways, none of which is the
invalid-time-character branch: the flag is ignored, the invalid-expiry error is written,
or `expires_at` is set after one reading of the clock. The token `10x` fails the format
check and never gets as far as the dispatch. -/
theorem invalid_time_character_unreachable (env : Env) (w : World) (cs : StringMap)
    (t : String) :
    (∀ n, regexpMatchString t = true →
      Atoi ((goBytes t).take ((goBytes t).length - 1)) = some n →
      ∃ u, (u = 's' ∨ u = 'm' ∨ u = 'h') ∧ t.data.getLast? = some u ∧
        (goBytes t).getD ((goBytes t).length - 1) 0 = u.toNat) ∧
    (expiryCase env w cs t = (w, some cs) ∨
      expiryCase env w cs t =
        (w.write ("[" ++ env.errorColor ++ "]Invalid expiry\n"), none) ∨
      ∃ x, expiryCase env w cs t =
        ({ w with clockReads := w.clockReads + 1 }, some (cs.set "expires_at" x))) ∧
    regexpMatchString "10x" = false ∧
    expiryCase env w cs "10x" = (w, some cs) :=
  ⟨fun n hm hat => unit_byte_is_last t n hm hat, expiryCase_outcome env w cs t, rfl,
    expiryCase_no_match env w cs "10x" rfl⟩

/-- A run of C19: for the token `10s` the byte at the unit dispatch is the `s`. -/
theorem invalid_time_character_unreachable_witness :
    ∃ u, (u = 's' ∨ u = 'm' ∨ u = 'h') ∧ ("10s" : String).data.getLast? = some u ∧
      (goBytes "10s").getD ((goBytes "10s").length - 1) 0 = u.toNat :=
  (invalid_time_character_unreachable sampleEnv (sampleWorld (sampleUser false) []) []
    "10s").1 10 rfl rfl

/-! ## C20: status-set when the update fails -/

/-- C20: for a session that is not a bot and a single token whose lower-case form is in
the table of accepted tokens: when `UserUpdateStatus` returns an error, with or without
a settings value, `StatusSetCmd.Execute` writes the error message and leaves the session
state, the cached settings included, as it was; and whatever the call returns, the
cached settings afterwards are the returned ones when there is no error and a settings
value, and the old ones in every other case. -/
theorem StatusSetCmd_Execute_update_error (env : Env) (w : World) (tok : String)
    (status : Status)
    (hbot : w.State.User.Bot = false)
    (htok : (env.toLower tok, status) ∈ specStatusTable) :
    (∀ settings err, env.userUpdateStatus status = (settings, some err) →
      (StatusSetCmd.Execute env w [tok]).State = w.State ∧
      (StatusSetCmd.Execute env w [tok]).written = w.written ++
        ["[" ++ env.errorColor ++ "]Error setting status:\n\t[" ++ env.errorColor ++
          "]'" ++ err ++ "'\n"]) ∧
    (StatusSetCmd.Execute env w [tok]).State.Settings =
      (match env.userUpdateStatus status with
       | (some s, none) => s
       | _ => w.State.Settings) := by
  simp only [specStatusTable, List.mem_cons, Prod.mk.injEq, List.mem_singleton,
    List.not_mem_nil, or_false] at htok
  have hb : (w.enter Handler.set [tok]).State.User.Bot = false := hbot
  rcases htok with h | h | h | h | h | h | h <;> obtain ⟨hl, rfl⟩ := h
  all_goals
    refine ⟨?_, ?_⟩
    · intro settings err hres
      simp only [StatusSetCmd.Execute, hb, callUserUpdateStatus]
      simp [hl, hres, World.write, World.enter]
    · simp only [StatusSetCmd.Execute, hb, callUserUpdateStatus]
      simp [hl]
      rcases hres : env.userUpdateStatus _ with ⟨_ | s, _ | err⟩ <;>
        simp [hres, World.write, World.enter]

/-- A run of C20: the update of `idle` fails and hands back settings all the same; the
error is written and the cached settings stay online. -/
theorem StatusSetCmd_Execute_update_error_witness :
    (StatusSetCmd.Execute sampleEnvUpdateFails (sampleWorld (sampleUser false) [])
        ["idle"]).State = (sampleWorld (sampleUser false) []).State ∧
    (StatusSetCmd.Execute sampleEnvUpdateFails (sampleWorld (sampleUser false) [])
        ["idle"]).written =
      (sampleWorld (sampleUser false) []).written ++
        ["[" ++ sampleEnvUpdateFails.errorColor ++ "]Error setting status:\n\t[" ++
          sampleEnvUpdateFails.errorColor ++ "]'" ++ "HTTP 500" ++ "'\n"] :=
  (StatusSetCmd_Execute_update_error sampleEnvUpdateFails (sampleWorld (sampleUser false) [])
    "idle" Status.StatusIdle rfl (by decide)).1 (some (sampleSettings Status.StatusIdle))
    "HTTP 500" rfl

end Cordless
